import Mathlib

/-!
Shallow embedding of the event protocol of the vibedesign repository:
the wire data model (`figma_plugin/src/types/events.ts`), the envelope
codec (`JSON.stringify` / `JSON.parse` as used by `EventService`), the
`EventService` connection/correlation state machine
(`figma_plugin/src/services/event-service.ts`) and the `WebSocketClient`
reconnect logic (`src/services/websocket-client.ts`).

Pure functions of the source become Lean functions; the stateful service
becomes explicit state passing (`SvcState`) with an action type `Act` and
observable events `Evt`; JavaScript's non-deterministic inputs
(`crypto.randomUUID`, close codes, timer firings) become explicit
parameters and actions.
-/

set_option maxRecDepth 4000

namespace VibeDesign

/-- The closed enum of wire event kinds, from
`figma_plugin/src/types/events.ts`, `enum FigmaEventType`. -/
inductive FigmaEventType
  | CONNECT
  | DISCONNECT
  | PING
  | PONG
  | ERROR
  | UPDATE_NODE_REQUEST
  | UPDATE_NODE_PROGRESS
  | UPDATE_NODE_COMPLETE
  | UPDATE_NODE_ERROR
  | SELECTION_CHANGE
  | GET_SELECTION
  | ANALYZE_DESIGN_REQUEST
  | ANALYZE_DESIGN_PROGRESS
  | ANALYZE_DESIGN_COMPLETE
  | GENERATE_CODE_REQUEST
  | GENERATE_CODE_PROGRESS
  | GENERATE_CODE_COMPLETE
  | GENERATE_RESPONSIVE_REQUEST
  | GENERATE_RESPONSIVE_PROGRESS
  | GENERATE_RESPONSIVE_COMPLETE
  deriving DecidableEq, Repr

/-- The event source enum (`enum EventSource`): which peer emitted the event. -/
inductive EventSource
  | PLUGIN
  | SERVER
  deriving DecidableEq, Repr

/-- Event metadata (`interface EventMetadata`): all five fields are required. -/
structure EventMetadata where
  event_id : String
  correlation_id : String
  timestamp : String
  source : EventSource
  session_id : String
  deriving DecidableEq, Repr

/-- A JSON value, the domain of `JSON.stringify`/`JSON.parse` as used for the
wire frames.  Numbers are modelled as integers (the protocol's own frames
carry only strings, booleans and opaque JSON payloads; the payload model
restricts JS numbers to the exactly-representable integer subset). -/
inductive Json
  | null
  | bool (b : Bool)
  | num (n : Int)
  | str (s : String)
  | arr (elems : List Json)
  | obj (fields : List (String × Json))

mutual
/-- Structural equality test on JSON values (JS deep equality of parsed
object graphs, restricted to this model). -/
def Json.beq : Json → Json → Bool
  | .null, .null => true
  | .bool a, .bool b => a == b
  | .num a, .num b => a == b
  | .str a, .str b => a == b
  | .arr a, .arr b => Json.beqList a b
  | .obj a, .obj b => Json.beqFields a b
  | _, _ => false

/-- Elementwise equality test on JSON arrays. -/
def Json.beqList : List Json → List Json → Bool
  | [], [] => true
  | a :: as, b :: bs => Json.beq a b && Json.beqList as bs
  | _, _ => false

/-- Memberwise equality test on JSON object member lists. -/
def Json.beqFields : List (String × Json) → List (String × Json) → Bool
  | [], [] => true
  | (k, v) :: as, (k2, v2) :: bs => k == k2 && Json.beq v v2 && Json.beqFields as bs
  | _, _ => false
end

theorem Json.beq_refl_all : ∀ n,
    (∀ a : Json, sizeOf a ≤ n → Json.beq a a = true) ∧
    (∀ as : List Json, sizeOf as ≤ n → Json.beqList as as = true) ∧
    (∀ fs : List (String × Json), sizeOf fs ≤ n → Json.beqFields fs fs = true) := by
  intro n
  induction n with
  | zero =>
    refine ⟨?_, ?_, ?_⟩
    · intro a h; cases a <;> simp at h
    · intro as h; cases as <;> simp at h
    · intro fs h; cases fs <;> simp at h
  | succ n ih =>
    obtain ⟨ihV, ihL, ihF⟩ := ih
    refine ⟨?_, ?_, ?_⟩
    · intro a h
      cases a with
      | null => rfl
      | bool b => simp [Json.beq]
      | num m => simp [Json.beq]
      | str s => simp [Json.beq]
      | arr xs =>
        have hx : sizeOf xs ≤ n := by simp only [Json.arr.sizeOf_spec] at h; omega
        simpa [Json.beq] using ihL xs hx
      | obj fs =>
        have hx : sizeOf fs ≤ n := by simp only [Json.obj.sizeOf_spec] at h; omega
        simpa [Json.beq] using ihF fs hx
    · intro as h
      cases as with
      | nil => rfl
      | cons a as =>
        simp only [List.cons.sizeOf_spec] at h
        simp only [Json.beqList, Bool.and_eq_true]
        exact ⟨ihV a (by omega), ihL as (by omega)⟩
    · intro fs h
      cases fs with
      | nil => rfl
      | cons kv fs =>
        obtain ⟨k, v⟩ := kv
        simp only [List.cons.sizeOf_spec, Prod.mk.sizeOf_spec] at h
        simp only [Json.beqFields, Bool.and_eq_true]
        exact ⟨⟨by simp, ihV v (by omega)⟩, ihF fs (by omega)⟩

theorem Json.beq_sound_all : ∀ n,
    (∀ a b : Json, sizeOf a ≤ n → Json.beq a b = true → a = b) ∧
    (∀ as bs : List Json, sizeOf as ≤ n → Json.beqList as bs = true → as = bs) ∧
    (∀ fs gs : List (String × Json), sizeOf fs ≤ n →
      Json.beqFields fs gs = true → fs = gs) := by
  intro n
  induction n with
  | zero =>
    refine ⟨?_, ?_, ?_⟩
    · intro a _ h; cases a <;> simp at h
    · intro as _ h; cases as <;> simp at h
    · intro fs _ h; cases fs <;> simp at h
  | succ n ih =>
    obtain ⟨ihV, ihL, ihF⟩ := ih
    refine ⟨?_, ?_, ?_⟩
    · intro a b hsz hbeq
      cases a <;> cases b <;>
        try (refine absurd hbeq ?_; simp [Json.beq]; done)
      · rfl
      · simp only [Json.beq, beq_iff_eq] at hbeq; rw [hbeq]
      · simp only [Json.beq, beq_iff_eq] at hbeq; rw [hbeq]
      · simp only [Json.beq, beq_iff_eq] at hbeq; rw [hbeq]
      · simp only [Json.arr.sizeOf_spec] at hsz
        simp only [Json.beq] at hbeq
        rw [ihL _ _ (by omega) hbeq]
      · simp only [Json.obj.sizeOf_spec] at hsz
        simp only [Json.beq] at hbeq
        rw [ihF _ _ (by omega) hbeq]
    · intro as bs hsz hbeq
      cases as <;> cases bs <;>
        try (refine absurd hbeq ?_; simp [Json.beqList]; done)
      · rfl
      · rename_i a as b bs
        simp only [Json.beqList, Bool.and_eq_true] at hbeq
        simp only [List.cons.sizeOf_spec] at hsz
        rw [ihV a b (by omega) hbeq.1, ihL as bs (by omega) hbeq.2]
    · intro fs gs hsz hbeq
      cases fs <;> cases gs <;>
        try (refine absurd hbeq ?_; simp [Json.beqFields]; done)
      · rfl
      · rename_i kv fs kv2 gs
        obtain ⟨k, v⟩ := kv
        obtain ⟨k2, v2⟩ := kv2
        simp only [Json.beqFields, Bool.and_eq_true, beq_iff_eq] at hbeq
        simp only [List.cons.sizeOf_spec, Prod.mk.sizeOf_spec] at hsz
        rw [hbeq.1.1, ihV v v2 (by omega) hbeq.1.2, ihF fs gs (by omega) hbeq.2]

instance : DecidableEq Json := fun a b =>
  if h : Json.beq a b = true then
    .isTrue ((Json.beq_sound_all (sizeOf a)).1 a b le_rfl h)
  else
    .isFalse (fun he => h (he ▸ (Json.beq_refl_all (sizeOf a)).1 a le_rfl))

/-- A wire envelope (`interface FigmaEvent<T>`): `payload?` is optional, so an
absent payload (JS `undefined`, omitted by `JSON.stringify`) is `none`. -/
structure FigmaEvent where
  type : FigmaEventType
  metadata : EventMetadata
  payload : Option Json
  deriving DecidableEq

/-! ## Envelope codec: the `JSON.stringify` side -/

/-- Lowercase hexadecimal digit, as emitted inside `\u00XX` escapes. -/
def hexDigitChar (n : Nat) : Char :=
  if n < 10 then Char.ofNat (48 + n) else Char.ofNat (87 + n)

/-- `JSON.stringify` escaping of one character of a string value:
`"` and `\` are backslash-escaped, the common control characters get their
short escapes, the remaining control characters become `\u00XX`, and every
other character is emitted verbatim. -/
def escapeChar (c : Char) : List Char :=
  if c = '"' then ['\\', '"']
  else if c = '\\' then ['\\', '\\']
  else if c = '\x08' then ['\\', 'b']
  else if c = '\t' then ['\\', 't']
  else if c = '\n' then ['\\', 'n']
  else if c = '\x0c' then ['\\', 'f']
  else if c = '\r' then ['\\', 'r']
  else if c.toNat < 32 then
    ['\\', 'u', '0', '0', hexDigitChar (c.toNat / 16), hexDigitChar (c.toNat % 16)]
  else [c]

/-- Escape a whole string body. -/
def escapeString (s : List Char) : List Char := s.flatMap escapeChar

/-- Fuel-driven helper for decimal printing (the fuel only bounds the digit
count so the definition stays structurally recursive and kernel-reducible). -/
def natToDigitsAux : Nat → Nat → List Char
  | 0, _ => []
  | fuel + 1, n =>
    if n < 10 then [hexDigitChar n]
    else natToDigitsAux fuel (n / 10) ++ [hexDigitChar (n % 10)]

/-- Decimal digits of a natural number, most significant first. -/
def natToDigits (n : Nat) : List Char := natToDigitsAux (n + 1) n

/-- Decimal rendering of an integer, as `JSON.stringify` prints JS integers. -/
def intToChars : Int → List Char
  | .ofNat n => natToDigits n
  | .negSucc n => '-' :: natToDigits (n + 1)

/-- A string literal as printed by `JSON.stringify`. -/
def printStr (s : String) : List Char := '"' :: (escapeString s.data ++ ['"'])

mutual
/-- `JSON.stringify` (without indentation: no whitespace is emitted). -/
def printJson : Json → List Char
  | .null => "null".data
  | .bool true => "true".data
  | .bool false => "false".data
  | .num n => intToChars n
  | .str s => printStr s
  | .arr xs => '[' :: (printElems xs ++ [']'])
  | .obj kvs => '\x7b' :: (printFields kvs ++ ['\x7d'])

/-- Comma-separated array elements. -/
def printElems : List Json → List Char
  | [] => []
  | [x] => printJson x
  | x :: y :: rest => printJson x ++ ',' :: printElems (y :: rest)

/-- Comma-separated `"key":value` object members. -/
def printFields : List (String × Json) → List Char
  | [] => []
  | [(k, v)] => printStr k ++ ':' :: printJson v
  | (k, v) :: f :: rest => printStr k ++ ':' :: printJson v ++ ',' :: printFields (f :: rest)
end

/-! ## Envelope codec: the `JSON.parse` side

The service decodes with `JSON.parse(message.data)` followed by an unchecked
cast to `FigmaEvent` (`event-service.ts`, `ws.onmessage`).  `parseJson`
models `JSON.parse` on the whitespace-free frames `JSON.stringify` produces;
`jsonToEvent` models the shape the service relies on when it immediately
reads `event.metadata.correlation_id` and `event.type` (an object lacking
those fields makes the handler throw, which `onmessage` catches — observable
as a decode failure). -/

/-- Value of one hexadecimal digit, accepting both cases as `JSON.parse` does. -/
def hexVal? (c : Char) : Option Nat :=
  if '0' ≤ c ∧ c ≤ '9' then some (c.toNat - 48)
  else if 'a' ≤ c ∧ c ≤ 'f' then some (c.toNat - 87)
  else if 'A' ≤ c ∧ c ≤ 'F' then some (c.toNat - 55)
  else none

/-- Parse the body of a JSON string literal (after the opening quote),
returning the unescaped characters and the input after the closing quote. -/
def parseStringBody : List Char → Option (List Char × List Char)
  | [] => none
  | c :: cs =>
    if c = '"' then some ([], cs)
    else if c = '\\' then
      match cs with
      | [] => none
      | e :: cs2 =>
        if e = '"' then (parseStringBody cs2).map (fun p => ('"' :: p.1, p.2))
        else if e = '\\' then (parseStringBody cs2).map (fun p => ('\\' :: p.1, p.2))
        else if e = '/' then (parseStringBody cs2).map (fun p => ('/' :: p.1, p.2))
        else if e = 'b' then (parseStringBody cs2).map (fun p => ('\x08' :: p.1, p.2))
        else if e = 'f' then (parseStringBody cs2).map (fun p => ('\x0c' :: p.1, p.2))
        else if e = 'n' then (parseStringBody cs2).map (fun p => ('\n' :: p.1, p.2))
        else if e = 'r' then (parseStringBody cs2).map (fun p => ('\r' :: p.1, p.2))
        else if e = 't' then (parseStringBody cs2).map (fun p => ('\t' :: p.1, p.2))
        else if e = 'u' then
          match cs2 with
          | h1 :: h2 :: h3 :: h4 :: cs3 =>
            match hexVal? h1, hexVal? h2, hexVal? h3, hexVal? h4 with
            | some v1, some v2, some v3, some v4 =>
              (parseStringBody cs3).map
                (fun p => (Char.ofNat (((v1 * 16 + v2) * 16 + v3) * 16 + v4) :: p.1, p.2))
            | _, _, _, _ => none
          | _ => none
        else none
    else if c.toNat < 32 then none
    else (parseStringBody cs).map (fun p => (c :: p.1, p.2))

/-- Take the maximal run of decimal digits from the front of the input. -/
def takeDigits : List Char → List Char × List Char
  | [] => ([], [])
  | c :: cs =>
    if c.isDigit then
      let p := takeDigits cs
      (c :: p.1, p.2)
    else ([], c :: cs)

/-- Numeric value of a digit run. -/
def digitsToNat (ds : List Char) : Nat :=
  ds.foldl (fun acc c => acc * 10 + (c.toNat - 48)) 0

/-- Expect a fixed token at the front of the input and drop it. -/
def dropToken : List Char → List Char → Option (List Char)
  | [], cs => some cs
  | _ :: _, [] => none
  | t :: ts, c :: cs => if c = t then dropToken ts cs else none

mutual
/-- Parse one JSON value.  The fuel argument only bounds nesting depth so the
function is structurally recursive; `parseJson` supplies enough fuel for any
input it is given. -/
def parseVal : Nat → List Char → Option (Json × List Char)
  | 0, _ => none
  | fuel + 1, cs =>
    match cs with
    | [] => none
    | c :: cs1 =>
      if c = 'n' then (dropToken ['u', 'l', 'l'] cs1).map (fun r => (.null, r))
      else if c = 't' then (dropToken ['r', 'u', 'e'] cs1).map (fun r => (.bool true, r))
      else if c = 'f' then (dropToken ['a', 'l', 's', 'e'] cs1).map (fun r => (.bool false, r))
      else if c = '"' then (parseStringBody cs1).map (fun p => (.str ⟨p.1⟩, p.2))
      else if c = '[' then
        match cs1 with
        | [] => none
        | c2 :: cs2 =>
          if c2 = ']' then some (.arr [], cs2)
          else (parseItems fuel (c2 :: cs2)).map (fun p => (.arr p.1, p.2))
      else if c = '\x7b' then
        match cs1 with
        | [] => none
        | c2 :: cs2 =>
          if c2 = '\x7d' then some (.obj [], cs2)
          else (parseFields fuel (c2 :: cs2)).map (fun p => (.obj p.1, p.2))
      else if c = '-' then
        match takeDigits cs1 with
        | ([], _) => none
        | (ds, r) => some (.num (-(digitsToNat ds : Int)), r)
      else if c.isDigit then
        let p := takeDigits (c :: cs1)
        some (.num (digitsToNat p.1), p.2)
      else none

/-- Parse the elements of a non-empty JSON array, consuming the closing `]`. -/
def parseItems : Nat → List Char → Option (List Json × List Char)
  | 0, _ => none
  | fuel + 1, cs => do
    let (v, r) ← parseVal fuel cs
    match r with
    | ',' :: r2 => do
      let (vs, r3) ← parseItems fuel r2
      pure (v :: vs, r3)
    | ']' :: r2 => pure ([v], r2)
    | _ => none

/-- Parse the members of a non-empty JSON object, consuming the closing brace. -/
def parseFields : Nat → List Char → Option (List (String × Json) × List Char)
  | 0, _ => none
  | fuel + 1, cs =>
    match cs with
    | '"' :: cs1 => do
      let (k, r) ← parseStringBody cs1
      match r with
      | ':' :: r2 => do
        let (v, r3) ← parseVal fuel r2
        match r3 with
        | ',' :: r4 => do
          let (kvs, r5) ← parseFields fuel r4
          pure ((⟨k⟩, v) :: kvs, r5)
        | '\x7d' :: r4 => pure ([(⟨k⟩, v)], r4)
        | _ => none
      | _ => none
    | _ => none
end

/-- Parse a whole frame consisting of exactly one printed JSON value, as
`stringify` emits it (no surrounding whitespace, integer numbers).
`jsParse` below embeds `JSON.parse` itself for arbitrary inbound frames. -/
def parseJson (s : String) : Option Json :=
  match parseVal (2 * s.data.length + 1) s.data with
  | some (j, []) => some j
  | _ => none

/-- The input does not begin with a decimal digit (used to delimit printed
numbers in round-trip statements; the continuation after any printed value
is `,`, `]`, a closing brace or the end of the frame). -/
def NoDigitHead : List Char → Prop
  | [] => True
  | c :: _ => c.isDigit = false

mutual
/-- Parser-fuel weight of a JSON value: an upper bound on the nesting the
fueled parser consumes to read it back. -/
def wVal : Json → Nat
  | .null => 1
  | .bool _ => 1
  | .num _ => 1
  | .str _ => 1
  | .arr xs => 1 + wItems xs
  | .obj kvs => 1 + wFields kvs

/-- Weight of an array's element list. -/
def wItems : List Json → Nat
  | [] => 1
  | x :: xs => 1 + wVal x + wItems xs

/-- Weight of an object's member list. -/
def wFields : List (String × Json) → Nat
  | [] => 1
  | (_, v) :: kvs => 1 + wVal v + wFields kvs
end

/-! ## Wire names of the enums and the envelope object shape -/

/-- The wire string of each event kind (the TS enum member's value). -/
def typeWire : FigmaEventType → String
  | .CONNECT => "CONNECT"
  | .DISCONNECT => "DISCONNECT"
  | .PING => "PING"
  | .PONG => "PONG"
  | .ERROR => "ERROR"
  | .UPDATE_NODE_REQUEST => "UPDATE_NODE_REQUEST"
  | .UPDATE_NODE_PROGRESS => "UPDATE_NODE_PROGRESS"
  | .UPDATE_NODE_COMPLETE => "UPDATE_NODE_COMPLETE"
  | .UPDATE_NODE_ERROR => "UPDATE_NODE_ERROR"
  | .SELECTION_CHANGE => "SELECTION_CHANGE"
  | .GET_SELECTION => "GET_SELECTION"
  | .ANALYZE_DESIGN_REQUEST => "ANALYZE_DESIGN_REQUEST"
  | .ANALYZE_DESIGN_PROGRESS => "ANALYZE_DESIGN_PROGRESS"
  | .ANALYZE_DESIGN_COMPLETE => "ANALYZE_DESIGN_COMPLETE"
  | .GENERATE_CODE_REQUEST => "GENERATE_CODE_REQUEST"
  | .GENERATE_CODE_PROGRESS => "GENERATE_CODE_PROGRESS"
  | .GENERATE_CODE_COMPLETE => "GENERATE_CODE_COMPLETE"
  | .GENERATE_RESPONSIVE_REQUEST => "GENERATE_RESPONSIVE_REQUEST"
  | .GENERATE_RESPONSIVE_PROGRESS => "GENERATE_RESPONSIVE_PROGRESS"
  | .GENERATE_RESPONSIVE_COMPLETE => "GENERATE_RESPONSIVE_COMPLETE"

/-- Recover an event kind from its wire string (the closed-enum check a
well-formed envelope satisfies). -/
def typeOfWire (s : String) : Option FigmaEventType :=
  if s = "CONNECT" then some .CONNECT
  else if s = "DISCONNECT" then some .DISCONNECT
  else if s = "PING" then some .PING
  else if s = "PONG" then some .PONG
  else if s = "ERROR" then some .ERROR
  else if s = "UPDATE_NODE_REQUEST" then some .UPDATE_NODE_REQUEST
  else if s = "UPDATE_NODE_PROGRESS" then some .UPDATE_NODE_PROGRESS
  else if s = "UPDATE_NODE_COMPLETE" then some .UPDATE_NODE_COMPLETE
  else if s = "UPDATE_NODE_ERROR" then some .UPDATE_NODE_ERROR
  else if s = "SELECTION_CHANGE" then some .SELECTION_CHANGE
  else if s = "GET_SELECTION" then some .GET_SELECTION
  else if s = "ANALYZE_DESIGN_REQUEST" then some .ANALYZE_DESIGN_REQUEST
  else if s = "ANALYZE_DESIGN_PROGRESS" then some .ANALYZE_DESIGN_PROGRESS
  else if s = "ANALYZE_DESIGN_COMPLETE" then some .ANALYZE_DESIGN_COMPLETE
  else if s = "GENERATE_CODE_REQUEST" then some .GENERATE_CODE_REQUEST
  else if s = "GENERATE_CODE_PROGRESS" then some .GENERATE_CODE_PROGRESS
  else if s = "GENERATE_CODE_COMPLETE" then some .GENERATE_CODE_COMPLETE
  else if s = "GENERATE_RESPONSIVE_REQUEST" then some .GENERATE_RESPONSIVE_REQUEST
  else if s = "GENERATE_RESPONSIVE_PROGRESS" then some .GENERATE_RESPONSIVE_PROGRESS
  else if s = "GENERATE_RESPONSIVE_COMPLETE" then some .GENERATE_RESPONSIVE_COMPLETE
  else none

/-- The wire string of the event source enum. -/
def sourceWire : EventSource → String
  | .PLUGIN => "PLUGIN"
  | .SERVER => "SERVER"

/-- Recover the event source from its wire string. -/
def sourceOfWire (s : String) : Option EventSource :=
  if s = "PLUGIN" then some EventSource.PLUGIN
  else if s = "SERVER" then some EventSource.SERVER
  else none

/-- The JSON object `JSON.stringify` produces for `EventMetadata`
(keys in property-insertion order, as in the TS object literals). -/
def metadataToJson (m : EventMetadata) : Json :=
  .obj [("event_id", .str m.event_id),
        ("correlation_id", .str m.correlation_id),
        ("timestamp", .str m.timestamp),
        ("source", .str (sourceWire m.source)),
        ("session_id", .str m.session_id)]

/-- Recover metadata from its JSON object: all five required fields present,
in the emitted key order.  This is the spec's well-formedness notion, used
to state round-trip fidelity; the service itself never validates metadata
(see `looseCorrelationId` below). -/
def jsonToMetadata : Json → Option EventMetadata
  | .obj [("event_id", .str ei),
          ("correlation_id", .str ci),
          ("timestamp", .str ts),
          ("source", .str sw),
          ("session_id", .str si)] =>
    (sourceOfWire sw).map (fun src => ⟨ei, ci, ts, src, si⟩)
  | _ => none

/-- The JSON object `JSON.stringify` produces for a `FigmaEvent` value
(`payload` omitted when it is JS `undefined`). -/
def eventToJson (e : FigmaEvent) : Json :=
  match e.payload with
  | none => .obj [("type", .str (typeWire e.type)),
                  ("metadata", metadataToJson e.metadata)]
  | some p => .obj [("type", .str (typeWire e.type)),
                    ("metadata", metadataToJson e.metadata),
                    ("payload", p)]

/-- Recover an envelope from a parsed frame of exactly the shape `stringify`
emits.  This is the spec's decode notion, used to state round-trip
fidelity; the service's inbound path performs no such validation (see
`onMessage` below). -/
def jsonToEvent : Json → Option FigmaEvent
  | .obj [("type", .str t), ("metadata", mj)] => do
    let ty ← typeOfWire t
    let m ← jsonToMetadata mj
    pure ⟨ty, m, none⟩
  | .obj [("type", .str t), ("metadata", mj), ("payload", p)] => do
    let ty ← typeOfWire t
    let m ← jsonToMetadata mj
    pure ⟨ty, m, some p⟩
  | _ => none

/-- `JSON.stringify(event)`: the text frame written to the transport
(`sendEventInternal`). -/
def stringify (e : FigmaEvent) : String := ⟨printJson (eventToJson e)⟩

/-- Decoding of a well-formed text frame in the spec's sense: `JSON.parse`
followed by recovery of the exact envelope shape `stringify` emits.  Used
to state round-trip fidelity; the service's own inbound path is `onMessage`
below, built on `jsParse`. -/
def decodeFrame (s : String) : Option FigmaEvent := (parseJson s).bind jsonToEvent

/-! ## The inbound frame as `JSON.parse` reads it

The source's `ws.onmessage` runs `JSON.parse(message.data)` and
`handleEvent(event)` inside one `try/catch` and validates nothing else, so
the service processes any JSON value at all.  `JsVal` and `jsParse` embed
`JSON.parse` itself: whitespace between tokens, fractional and exponent
number forms, any object shape. -/

/-- A value as `JSON.parse` returns it.  A number keeps its source lexeme:
the service never reads a numeric field of an envelope, so only the
characters consumed matter. -/
inductive JsVal
  | null
  | bool (b : Bool)
  | num (lexeme : String)
  | str (s : String)
  | arr (elems : List JsVal)
  | obj (fields : List (String × JsVal))

/-- JSON whitespace: space, tab, line feed, carriage return. -/
def isJsonWs (c : Char) : Bool :=
  c = ' ' || c = '\t' || c = '\n' || c = '\r'

/-- Drop leading JSON whitespace. -/
def skipWs : List Char → List Char
  | [] => []
  | c :: cs => if isJsonWs c then skipWs cs else c :: cs

/-- Integer part of a JSON number after the optional sign: `0`, or a
nonzero digit followed by digits. -/
def jsNumInt : List Char → Option (List Char × List Char)
  | [] => none
  | c :: cs =>
    if c = '0' then some (['0'], cs)
    else if c.isDigit then
      let p := takeDigits cs
      some (c :: p.1, p.2)
    else none

/-- Optional fraction part (a dot and at least one digit) of a JSON number. -/
def jsFracPart : List Char → Option (List Char × List Char)
  | '.' :: cs =>
    match takeDigits cs with
    | ([], _) => none
    | (ds, r) => some ('.' :: ds, r)
  | cs => some ([], cs)

/-- Optional exponent part (`e` or `E`, an optional sign, at least one
digit) of a JSON number. -/
def jsExpPart : List Char → Option (List Char × List Char)
  | [] => some ([], [])
  | c :: cs =>
    if c = 'e' ∨ c = 'E' then
      match cs with
      | [] => none
      | d :: cs2 =>
        if d = '+' ∨ d = '-' then
          match takeDigits cs2 with
          | ([], _) => none
          | (ds, r) => some (c :: d :: ds, r)
        else
          match takeDigits (d :: cs2) with
          | ([], _) => none
          | (ds, r) => some (c :: ds, r)
    else some ([], c :: cs)

/-- Lexeme of a complete JSON number: optional minus, integer part,
optional fraction, optional exponent. -/
def jsNumLex (cs : List Char) : Option (List Char × List Char) :=
  match cs with
  | '-' :: cs1 => do
    let (i, r1) ← jsNumInt cs1
    let (fr, r2) ← jsFracPart r1
    let (ex, r3) ← jsExpPart r2
    pure ('-' :: (i ++ fr ++ ex), r3)
  | _ => do
    let (i, r1) ← jsNumInt cs
    let (fr, r2) ← jsFracPart r1
    let (ex, r3) ← jsExpPart r2
    pure (i ++ fr ++ ex, r3)

mutual
/-- One JSON value as `JSON.parse` reads it, whitespace allowed before
every token.  Fuel only bounds recursion depth so the function is
structurally recursive; `jsParse` supplies more than any input can use. -/
def jsVal : Nat → List Char → Option (JsVal × List Char)
  | 0, _ => none
  | fuel + 1, cs =>
    match skipWs cs with
    | [] => none
    | c :: cs1 =>
      if c = 'n' then (dropToken ['u', 'l', 'l'] cs1).map (fun r => (.null, r))
      else if c = 't' then (dropToken ['r', 'u', 'e'] cs1).map (fun r => (.bool true, r))
      else if c = 'f' then (dropToken ['a', 'l', 's', 'e'] cs1).map (fun r => (.bool false, r))
      else if c = '"' then (parseStringBody cs1).map (fun p => (.str ⟨p.1⟩, p.2))
      else if c = '[' then
        match skipWs cs1 with
        | ']' :: cs2 => some (.arr [], cs2)
        | cs2 => (jsItems fuel cs2).map (fun p => (.arr p.1, p.2))
      else if c = '\x7b' then
        match skipWs cs1 with
        | '\x7d' :: cs2 => some (.obj [], cs2)
        | cs2 => (jsFields fuel cs2).map (fun p => (.obj p.1, p.2))
      else
        match jsNumLex (c :: cs1) with
        | some (lex, r) => some (.num ⟨lex⟩, r)
        | none => none

/-- Elements of a non-empty array, consuming the closing bracket. -/
def jsItems : Nat → List Char → Option (List JsVal × List Char)
  | 0, _ => none
  | fuel + 1, cs => do
    let (v, r) ← jsVal fuel cs
    match skipWs r with
    | ',' :: r2 => do
      let (vs, r3) ← jsItems fuel r2
      pure (v :: vs, r3)
    | ']' :: r2 => pure ([v], r2)
    | _ => none

/-- Members of a non-empty object, consuming the closing brace.
`JSON.parse` accepts duplicate keys; all are kept here and `jsGet` below
applies the last-one-wins rule. -/
def jsFields : Nat → List Char → Option (List (String × JsVal) × List Char)
  | 0, _ => none
  | fuel + 1, cs =>
    match skipWs cs with
    | '"' :: cs1 => do
      let (k, r) ← parseStringBody cs1
      match skipWs r with
      | ':' :: r2 => do
        let (v, r3) ← jsVal fuel r2
        match skipWs r3 with
        | ',' :: r4 => do
          let (kvs, r5) ← jsFields fuel r4
          pure ((⟨k⟩, v) :: kvs, r5)
        | '\x7d' :: r4 => pure ([(⟨k⟩, v)], r4)
        | _ => none
      | _ => none
    | _ => none
end

/-- `JSON.parse(frame)`: one JSON value spanning the whole input up to
trailing whitespace; `none` stands for the thrown `SyntaxError`. -/
def jsParse (s : String) : Option JsVal :=
  match jsVal (2 * s.data.length + 2) s.data with
  | some (v, r) => if skipWs r = [] then some v else none
  | none => none

/-- Property lookup on a parsed object: `JSON.parse` keeps the last of
duplicate keys, so later members shadow earlier ones. -/
def jsGet (fields : List (String × JsVal)) (k : String) : Option JsVal :=
  fields.foldl (fun acc kv => if kv.1 = k then some kv.2 else acc) none

/-- The value of `event.metadata.correlation_id` as `handleEvent` reads it,
or `none` when that very first access throws: `event.metadata` is an
accessible property only of an object envelope, and reading
`.correlation_id` of `undefined` (no `metadata` member, or a non-object
envelope) or of `null` throws the `TypeError` that `onmessage`'s `catch`
swallows.  A missing or non-string `correlation_id` behaves exactly like
the empty string — it is falsy, or can never equal a string key of
`pendingRequests` — so it is mapped to `""`. -/
def looseCorrelationId : JsVal → Option String
  | .obj fields =>
    match jsGet fields "metadata" with
    | none => none
    | some .null => none
    | some (.obj mf) =>
      match jsGet mf "correlation_id" with
      | some (.str s) => some s
      | _ => some ""
    | some _ => some ""
  | _ => none

/-- The frame's `type` value as the handler-map key and built-in dispatch
key: handlers are registered only for members of the closed enum, so a
missing, non-string or unknown `type` (mapped to `none`) matches no
handler and no built-in. -/
def looseType : JsVal → Option FigmaEventType
  | .obj fields =>
    match jsGet fields "type" with
    | some (.str s) => typeOfWire s
    | _ => none
  | _ => none

/-! ## The `EventService` state machine

State of one `EventService` instance (`event-service.ts`).  JS closures are
replaced by observable events: completing a pending request's promise emits
an `Evt`.  `pendingRequests : Map<string, PendingRequest>` becomes the list
of its keys in insertion order (a JS `Map` iterates in insertion order and
its keys are distinct); the resolve/reject closures are represented by the
emitted events, and each entry's `setTimeout` handle by the fact that the
timeout callback re-checks `pendingRequests.has` before acting, so a cleared
or stale timer firing is a no-op. -/

/-- Observable effects of one `EventService` operation. -/
inductive Evt
  /-- A pending request's promise was resolved with a correlated envelope
  (`handleEvent` / the built-in response handlers). -/
  | resolved (cid : String)
  /-- A pending request's promise was rejected by its own timeout callback. -/
  | rejectedTimeout (cid : String)
  /-- A pending request's promise was rejected by `rejectAllPendingRequests`. -/
  | rejectedClosed (cid : String)
  /-- A pending request's promise was rejected by `handleNodeUpdateError`. -/
  | rejectedRemote (cid : String)
  /-- `setTimeout(connect, delay)` was scheduled by the `onclose` handler. -/
  | reconnectScheduled (attempt : Nat) (delay : ℚ)
  /-- A frame was written to the transport (`ws.send`). -/
  | wrote (frame : String)
  /-- A user-registered handler was invoked; `ok = false` means it threw and
  the exception was caught and logged at the dispatch boundary. -/
  | handlerRun (h : Nat) (ok : Bool)
  deriving DecidableEq

/-- Does this event settle (resolve or reject) the request `cid`? -/
def Evt.completes (cid : String) : Evt → Bool
  | .resolved c => c = cid
  | .rejectedTimeout c => c = cid
  | .rejectedClosed c => c = cid
  | .rejectedRemote c => c = cid
  | _ => false

/-- Is this event a scheduled reconnection attempt? -/
def Evt.isReconnect : Evt → Bool
  | .reconnectScheduled _ _ => true
  | _ => false

/-- `maxReconnectAttempts = 5` (`event-service.ts`). -/
def maxReconnectAttempts : Nat := 5

/-- `reconnectDelay = 1000` ms (`event-service.ts`). -/
def reconnectDelay : ℚ := 1000

/-- The delay the `onclose` handler computes for reconnect attempt `n`:
`this.reconnectDelay * Math.pow(1.5, this.reconnectAttempts - 1)` after the
increment, i.e. `1000 · 1.5^(n-1)`.  Every value for `n ≤ 5` is an exact
binary float, so ℚ is a faithful model of the JS arithmetic here. -/
def reconnectDelayFor (n : Nat) : ℚ := reconnectDelay * (3 / 2) ^ (n - 1)

/-- A user-registered subscription: event type, handler identity, and
whether the handler throws when invoked. -/
structure Subscription where
  eventType : FigmaEventType
  handlerId : Nat
  throws : Bool
  deriving DecidableEq

/-- State of one `EventService` instance. -/
structure SvcState where
  /-- `this.ws !== null && this.ws.readyState === WebSocket.OPEN`. -/
  wsOpen : Bool
  /-- The `ws.onclose`/`ws.onmessage`/… callbacks are still attached
  (`disconnect()` nulls them before closing). -/
  handlersInstalled : Bool
  /-- Keys of `this.pendingRequests`, in insertion order. -/
  pending : List String
  /-- User-registered `(type, handler)` subscriptions, in registration order. -/
  userHandlers : List Subscription
  /-- The built-in response handlers (`handlePong`, `handleNodeUpdateComplete`,
  `handleNodeUpdateError`, `handleCodeGenerationProgress`,
  `handleCodeGenerationComplete`) registered by `ws.onopen`. -/
  builtins : Bool
  /-- `this.sessionId`. -/
  sessionId : String
  /-- `this.reconnectAttempts`. -/
  reconnectAttempts : Nat
  /-- `this.pingInterval !== null`. -/
  pingActive : Bool
  /-- Whether `ws.send` throws on the next write (transport behaviour,
  caught by `sendEventInternal`'s `try/catch`). -/
  sendFails : Bool
  deriving DecidableEq

/-- Invocation of every user handler registered for `t`, in order.  The
source's `notifyHandlers` wraps each call in its own `try/catch`, so a
throwing handler is logged and the loop continues: every registered handler
is invoked regardless of earlier throws. -/
def runUserHandlers (s : SvcState) (t : FigmaEventType) : List Evt :=
  (s.userHandlers.filter (fun h => h.eventType = t)).map
    (fun h => .handlerRun h.handlerId !h.throws)

/-- Does this event type have a built-in handler that resolves a matching
pending request (`handlePong`, `handleNodeUpdateComplete`,
`handleCodeGenerationComplete`)? -/
def isResolveBuiltin : FigmaEventType → Bool
  | .PONG => true
  | .UPDATE_NODE_COMPLETE => true
  | .GENERATE_CODE_COMPLETE => true
  | _ => false

/-- Net effect of the built-in handlers registered by `ws.onopen` on the
pending-request map.  Each checks `pendingRequests.has(correlation_id)`
before acting and deletes the entry when it acts.  (The built-ins also call
`notifyHandlers` recursively on the same event; that re-entry cannot touch
the map again — the entry was just deleted, so the `has` check fails at
every deeper level — so the map effect collapses to this single step.) -/
def builtinEffect (s : SvcState) (e : FigmaEvent) : SvcState × List Evt :=
  if s.builtins then
    if isResolveBuiltin e.type then
      if s.pending.contains e.metadata.correlation_id then
        ({s with pending := s.pending.erase e.metadata.correlation_id},
          [.resolved e.metadata.correlation_id])
      else (s, [])
    else if e.type = .UPDATE_NODE_ERROR then
      if s.pending.contains e.metadata.correlation_id then
        ({s with pending := s.pending.erase e.metadata.correlation_id},
          [.rejectedRemote e.metadata.correlation_id])
      else (s, [])
    else (s, [])
  else (s, [])

/-- `notifyHandlers(event)`: invoke every handler registered for
`event.type`, isolating per-handler exceptions. -/
def notifyHandlers (s : SvcState) (e : FigmaEvent) : SvcState × List Evt :=
  let p := builtinEffect s e
  (p.1, runUserHandlers s e.type ++ p.2)

/-- `handleEvent(event)`: if the envelope's `correlation_id` is truthy and
matches a pending request, delete the entry, clear its timer and resolve its
promise with the whole envelope, then return; otherwise fan out to the
type's handlers. -/
def handleEvent (s : SvcState) (e : FigmaEvent) : SvcState × List Evt :=
  if e.metadata.correlation_id ≠ "" ∧ s.pending.contains e.metadata.correlation_id then
    ({s with pending := s.pending.erase e.metadata.correlation_id},
      [.resolved e.metadata.correlation_id])
  else notifyHandlers s e

/-- Invocation of every user handler whose registered type is the inbound
frame's `type` value (`handlers.get(event.type)`): for a raw frame the
lookup key is whatever the frame carried, so `ty = none` — a missing,
non-string or unknown `type` — matches no subscription. -/
def runUserHandlersW (s : SvcState) (ty : Option FigmaEventType) : List Evt :=
  (s.userHandlers.filter (fun h => some h.eventType = ty)).map
    (fun h => .handlerRun h.handlerId (!h.throws))

/-- Net effect of the built-in handlers on the pending map for an inbound
envelope seen at the JS level, keyed by the frame's `type` value; each
built-in re-checks `pendingRequests.has(correlation_id)` before acting
(compare `builtinEffect` above, its restriction to well-typed envelopes). -/
def builtinEffectW (s : SvcState) (ty : Option FigmaEventType) (c : String) :
    SvcState × List Evt :=
  match ty with
  | some t =>
    if s.builtins then
      if isResolveBuiltin t then
        if s.pending.contains c then
          ({s with pending := s.pending.erase c}, [.resolved c])
        else (s, [])
      else if t = .UPDATE_NODE_ERROR then
        if s.pending.contains c then
          ({s with pending := s.pending.erase c}, [.rejectedRemote c])
        else (s, [])
      else (s, [])
    else (s, [])
  | none => (s, [])

/-- `notifyHandlers(event)` for an envelope seen at the JS level. -/
def notifyHandlersW (s : SvcState) (ty : Option FigmaEventType) (c : String) :
    SvcState × List Evt :=
  let p := builtinEffectW s ty c
  (p.1, runUserHandlersW s ty ++ p.2)

/-- `handleEvent(event)` for an envelope seen at the JS level.  The only
fields the source reads are `event.metadata.correlation_id` (`c`) and
`event.type` (`ty`); `handleEvent` above is this same function at
`ty = some e.type`, `c = e.metadata.correlation_id`
(`handleEvent_agrees`). -/
def handleEventW (s : SvcState) (ty : Option FigmaEventType) (c : String) :
    SvcState × List Evt :=
  if c ≠ "" ∧ s.pending.contains c then
    ({s with pending := s.pending.erase c}, [.resolved c])
  else notifyHandlersW s ty c

/-- The timeout callback armed by `sendEventAndWaitForResponse`: if the
entry still exists when the timer fires, delete it and reject with the
timeout error; otherwise do nothing. -/
def onTimeout (s : SvcState) (cid : String) : SvcState × List Evt :=
  if s.pending.contains cid then
    ({s with pending := s.pending.erase cid}, [.rejectedTimeout cid])
  else (s, [])

/-- `rejectAllPendingRequests(reason)`: reject and remove every pending
entry (map iteration order = insertion order). -/
def rejectAllPendingRequests (s : SvcState) : SvcState × List Evt :=
  ({s with pending := []}, s.pending.map Evt.rejectedClosed)

/-- `sendEventInternal(event)`: when the socket is not open, log an error
and return (no write, no throw, no buffering); when open, `ws.send` the
frame inside `try`, and — unless the type is `PING` or `PONG` — locally
notify the type's handlers of the outbound event.  A throwing `ws.send` is
caught and logged, skipping the local notification. -/
def sendEventInternal (s : SvcState) (e : FigmaEvent) : SvcState × List Evt :=
  if !s.wsOpen then (s, [])
  else if s.sendFails then (s, [])
  else if e.type = .PING ∨ e.type = .PONG then (s, [.wrote (stringify e)])
  else
    let p := notifyHandlers s e
    (p.1, .wrote (stringify e) :: p.2)

/-- Outcome classification of one `sendEventInternal` call: the source
function returns `void` and never throws to its caller (both failure paths
end in `logError` followed by a normal return). -/
inductive SendOutcome
  /-- Frame written to the open transport. -/
  | sent
  /-- `WebSocket is not connected`: logged, envelope dropped. -/
  | droppedNotConnected
  /-- `ws.send` threw: caught and logged, envelope dropped. -/
  | droppedSendError
  deriving DecidableEq

/-- `sendEventInternal` together with its outcome. -/
def sendEventInternalR (s : SvcState) (e : FigmaEvent) :
    (SvcState × List Evt) × SendOutcome :=
  if !s.wsOpen then ((s, []), .droppedNotConnected)
  else if s.sendFails then ((s, []), .droppedSendError)
  else (sendEventInternal s e, .sent)

/-- The `DISCONNECT` envelope the `onclose` handler builds from the close
event (`event.reason || 'Connection closed'`). -/
def closeDisconnectEvent (code : Int) (reason : String) (wasClean : Bool)
    (m : EventMetadata) : FigmaEvent :=
  ⟨.DISCONNECT, m,
    some (.obj [("code", .num code),
                ("reason", .str (if reason = "" then "Connection closed" else reason)),
                ("wasClean", .bool wasClean)])⟩

/-- The reconnect-scheduling tail of the `onclose` handler: whatever the
close code was, if `reconnectAttempts < maxReconnectAttempts`, increment the
counter and schedule `connect` after `reconnectDelay * 1.5^(attempts-1)`. -/
def reconnectAfterClose (p : SvcState × List Evt) : SvcState × List Evt :=
  if p.1.reconnectAttempts < maxReconnectAttempts then
    ({p.1 with reconnectAttempts := p.1.reconnectAttempts + 1},
      p.2 ++ [.reconnectScheduled (p.1.reconnectAttempts + 1)
                (reconnectDelayFor (p.1.reconnectAttempts + 1))])
  else p

/-- The `ws.onclose` handler installed by `connect` (lines 562–592): stop
the ping interval (`cleanup`), notify handlers of a `DISCONNECT` event
built from the close code/reason, then schedule reconnection.  Pending
requests are not touched.  After `disconnect()` the callback has been
removed (`ws.onclose = null`), modelled by `handlersInstalled = false`. -/
def handleClose (s : SvcState) (code : Int) (reason : String) (wasClean : Bool)
    (m : EventMetadata) : SvcState × List Evt :=
  if !s.handlersInstalled then (s, [])
  else
    reconnectAfterClose (notifyHandlers {s with wsOpen := false, pingActive := false}
      (closeDisconnectEvent code reason wasClean m))

/-- The `DISCONNECT` notification `disconnect()` sends while still open. -/
def disconnectRequestEvent (m : EventMetadata) : FigmaEvent :=
  ⟨.DISCONNECT, m, some (.obj [("reason", .str "Client disconnected")])⟩

/-- `disconnect()`: if the socket is open, best-effort send a `DISCONNECT`
envelope; null out the `ws` callbacks and close the socket; stop the ping
interval; reject every pending request with
`'WebSocket connection closed'`. -/
def disconnectCall (s : SvcState) (m : EventMetadata) : SvcState × List Evt :=
  let p :=
    if s.wsOpen then sendEventInternal s (disconnectRequestEvent m)
    else (s, [])
  let s2 : SvcState := {p.1 with wsOpen := false, handlersInstalled := false, pingActive := false}
  let q := rejectAllPendingRequests s2
  (q.1, p.2 ++ q.2)

/-- The synchronous prefix of `connect(url)` (lines 516–530): `this.url` and
`this.sessionId` are assigned first — `sessionId = generateSessionId()` is
modelled by the caller-supplied fresh value — and only then is the
already-open check made; when already open the promise resolves immediately
and nothing else happens, otherwise a new `WebSocket` is created with the
callbacks attached.  Returns whether the call resolved immediately. -/
def connectCall (s : SvcState) (freshSession : String) : SvcState × Bool :=
  let s1 : SvcState := {s with sessionId := freshSession}
  if s1.wsOpen then (s1, true)
  else ({s1 with handlersInstalled := true}, false)

/-- The `clientInfo` object sent in the `CONNECT` payload (`getClientInfo`). -/
def clientInfoJson : Json :=
  .obj [("pluginId", .str "1234567890"),
        ("platform", .str "Figma"),
        ("version", .str "1.0.0")]

/-- The `ws.onopen` handler: reset `reconnectAttempts` to 0, send the
`CONNECT` envelope, register the built-in response handlers, start the ping
interval. -/
def handleOpen (s : SvcState) (m : EventMetadata) : SvcState × List Evt :=
  let p := sendEventInternal {s with wsOpen := true, reconnectAttempts := 0}
    ⟨.CONNECT, m, some (.obj [("clientInfo", clientInfoJson)])⟩
  ({p.1 with builtins := true, pingActive := true}, p.2)

/-- The `ws.onmessage` handler: `JSON.parse(message.data)` and then
`handleEvent(event)` run inside one `try/catch`, so a frame is logged and
dropped only when the parse throws, or when `event.metadata` is absent or
`null` and the very first field access in `handleEvent` throws before any
state is touched.  Nothing else is validated: every other parsed envelope
is processed, whatever its shape. -/
def onMessage (s : SvcState) (frame : String) : SvcState × List Evt :=
  match jsParse frame with
  | none => (s, [])
  | some j =>
    match looseCorrelationId j with
    | none => (s, [])
    | some c => handleEventW s (looseType j) c

/-- The externally triggered actions the service can process: inbound
frames (raw or already decoded), a pending request's timer firing, a caller
`disconnect()`, and a transport close event. -/
inductive Act
  | inbound (e : FigmaEvent)
  | rawFrame (frame : String)
  | timerFire (cid : String)
  | disconnect (m : EventMetadata)
  | closeEvt (code : Int) (reason : String) (wasClean : Bool) (m : EventMetadata)

/-- One step of the service. -/
def step (s : SvcState) : Act → SvcState × List Evt
  | .inbound e => handleEvent s e
  | .rawFrame f => onMessage s f
  | .timerFire cid => onTimeout s cid
  | .disconnect m => disconnectCall s m
  | .closeEvt c r w m => handleClose s c r w m

/-- Run a sequence of actions, accumulating the emitted events. -/
def run (s : SvcState) : List Act → SvcState × List Evt
  | [] => (s, [])
  | a :: as =>
    let p := step s a
    let q := run p.1 as
    (q.1, p.2 ++ q.2)

/-! ## The `WebSocketClient` close handler (`src/services/websocket-client.ts`) -/

/-- State of one `WebSocketClient` (the fields `handleClose` touches). -/
structure WSClientState where
  /-- `this.ws !== null && this.ws.readyState === WebSocket.OPEN`. -/
  hasWs : Bool
  /-- `this.reconnectAttempts`. -/
  reconnectAttempts : Nat
  /-- `this.isConnecting`. -/
  isConnecting : Bool
  deriving DecidableEq

/-- `WebSocketClient.handleClose(event)`: reconnection is attempted only
when `event.code !== 1000` and fewer than `maxReconnectAttempts` attempts
were made; otherwise the connection promise's rejecter (when present) is
invoked.  Returns `(state, reconnectScheduled, promiseRejected)`. -/
def wsClientHandleClose (s : WSClientState) (code : Int) :
    WSClientState × Bool × Bool :=
  let s1 : WSClientState := {s with hasWs := false, isConnecting := false}
  if code ≠ 1000 ∧ s.reconnectAttempts < 5 then
    ({s1 with reconnectAttempts := s1.reconnectAttempts + 1}, true, false)
  else (s1, false, true)

/-- Outcome of `WebSocketClient.send`: when the socket is not open it first
awaits `connect()` and then writes — it does not fail fast. -/
inductive WSSendOutcome
  | sentDirectly
  | connectsThenSends
  deriving DecidableEq

/-- `WebSocketClient.send(message)` control flow. -/
def wsClientSend (s : WSClientState) : WSSendOutcome :=
  if s.hasWs then .sentDirectly else .connectsThenSends

/-! ## Codec round-trip lemmas -/

theorem dropToken_append (ts rest : List Char) : dropToken ts (ts ++ rest) = some rest := by
  induction ts with
  | nil => rfl
  | cons t ts ih => simp [dropToken, ih]

theorem hexVal?_hexDigitChar {n : Nat} (h : n < 16) : hexVal? (hexDigitChar n) = some n := by
  have : ∀ m, m < 16 → hexVal? (hexDigitChar m) = some m := by decide
  exact this n h

theorem charOfNat_toNat (c : Char) (h : c.toNat < 55296) : Char.ofNat c.toNat = c := by
  have hv : Nat.isValidChar c.toNat := Or.inl h
  apply Char.ext
  rw [Char.ofNat, dif_pos hv]
  simp [Char.ofNatAux, Char.toNat, UInt32.ofNat']
  apply UInt32.ext
  simp [UInt32.toNat]

theorem parseStringBody_uEsc (a b : Char) (va vb : Nat) (rest : List Char)
    (ea : hexVal? a = some va) (eb : hexVal? b = some vb) :
    parseStringBody ('\\' :: 'u' :: '0' :: '0' :: a :: b :: rest) =
      (parseStringBody rest).map
        (fun p => (Char.ofNat (((0 * 16 + 0) * 16 + va) * 16 + vb) :: p.1, p.2)) := by
  have h0 : hexVal? '0' = some 0 := by decide
  rw [parseStringBody.eq_def]
  simp [h0, ea, eb]

theorem parseStringBody_escapeChar (c : Char) (rest : List Char) :
    parseStringBody (escapeChar c ++ rest) =
      (parseStringBody rest).map (fun p => (c :: p.1, p.2)) := by
  by_cases h1 : c = '"'
  · subst h1
    rw [show escapeChar '"' = ['\\', '"'] from by decide]
    simp only [List.cons_append, List.nil_append]
    rw [parseStringBody.eq_def]; simp
  by_cases h2 : c = '\\'
  · subst h2
    rw [show escapeChar '\\' = ['\\', '\\'] from by decide]
    simp only [List.cons_append, List.nil_append]
    rw [parseStringBody.eq_def]; simp
  by_cases h3 : c = '\x08'
  · subst h3
    rw [show escapeChar '\x08' = ['\\', 'b'] from by decide]
    simp only [List.cons_append, List.nil_append]
    rw [parseStringBody.eq_def]; simp
  by_cases h4 : c = '\t'
  · subst h4
    rw [show escapeChar '\t' = ['\\', 't'] from by decide]
    simp only [List.cons_append, List.nil_append]
    rw [parseStringBody.eq_def]; simp
  by_cases h5 : c = '\n'
  · subst h5
    rw [show escapeChar '\n' = ['\\', 'n'] from by decide]
    simp only [List.cons_append, List.nil_append]
    rw [parseStringBody.eq_def]; simp
  by_cases h6 : c = '\x0c'
  · subst h6
    rw [show escapeChar '\x0c' = ['\\', 'f'] from by decide]
    simp only [List.cons_append, List.nil_append]
    rw [parseStringBody.eq_def]; simp
  by_cases h7 : c = '\r'
  · subst h7
    rw [show escapeChar '\r' = ['\\', 'r'] from by decide]
    simp only [List.cons_append, List.nil_append]
    rw [parseStringBody.eq_def]; simp
  by_cases h8 : c.toNat < 32
  · have hesc : escapeChar c =
        ['\\', 'u', '0', '0', hexDigitChar (c.toNat / 16), hexDigitChar (c.toNat % 16)] := by
      simp only [escapeChar, if_neg h1, if_neg h2, if_neg h3, if_neg h4, if_neg h5,
        if_neg h6, if_neg h7, if_pos h8]
    rw [hesc]
    simp only [List.cons_append, List.nil_append]
    rw [parseStringBody_uEsc _ _ _ _ _ (hexVal?_hexDigitChar (by omega))
      (hexVal?_hexDigitChar (by omega))]
    have hch : Char.ofNat (((0 * 16 + 0) * 16 + c.toNat / 16) * 16 + c.toNat % 16) = c := by
      have hc : ((0 * 16 + 0) * 16 + c.toNat / 16) * 16 + c.toNat % 16 = c.toNat := by omega
      rw [hc]
      exact charOfNat_toNat c (by omega)
    rw [hch]
  · have hesc : escapeChar c = [c] := by
      simp only [escapeChar, if_neg h1, if_neg h2, if_neg h3, if_neg h4, if_neg h5,
        if_neg h6, if_neg h7, if_neg h8]
    rw [hesc]
    simp only [List.cons_append, List.nil_append]
    rw [parseStringBody.eq_def]
    simp only [if_neg h1, if_neg h2, if_neg h8]

theorem parseStringBody_escape (s rest : List Char) :
    parseStringBody (escapeString s ++ '"' :: rest) = some (s, rest) := by
  induction s with
  | nil =>
    show parseStringBody ('"' :: rest) = some ([], rest)
    rw [parseStringBody.eq_def]; simp
  | cons c s ih =>
    have he : escapeString (c :: s) = escapeChar c ++ escapeString s := by
      simp [escapeString]
    rw [he, List.append_assoc, parseStringBody_escapeChar, ih]
    rfl

theorem digit_ne {c d : Char} (h : c.isDigit = true) (hd : d.isDigit = false) : c ≠ d := by
  intro he
  rw [he, hd] at h
  exact absurd h (by simp)

theorem hexDigitChar_digit {m : Nat} (h : m < 10) :
    (hexDigitChar m).isDigit = true ∧ (hexDigitChar m).toNat = 48 + m := by
  have : ∀ k, k < 10 → (hexDigitChar k).isDigit = true ∧ (hexDigitChar k).toNat = 48 + k := by
    decide
  exact this m h

theorem digitsToNat_append_digit (ds : List Char) (c : Char) :
    digitsToNat (ds ++ [c]) = 10 * digitsToNat ds + (c.toNat - 48) := by
  simp [digitsToNat, List.foldl_append, Nat.mul_comm]

theorem natToDigitsAux_spec : ∀ fuel n, n < fuel →
    natToDigitsAux fuel n ≠ [] ∧
      (∀ c ∈ natToDigitsAux fuel n, c.isDigit = true) ∧
      digitsToNat (natToDigitsAux fuel n) = n := by
  intro fuel
  induction fuel with
  | zero => intro n h; omega
  | succ fuel ih =>
    intro n h
    by_cases h10 : n < 10
    · simp only [natToDigitsAux, if_pos h10]
      refine ⟨by simp, ?_, ?_⟩
      · intro c hc
        simp only [List.mem_singleton] at hc
        subst hc
        exact (hexDigitChar_digit h10).1
      · show digitsToNat ([] ++ [hexDigitChar n]) = n
        rw [digitsToNat_append_digit]
        have := (hexDigitChar_digit h10).2
        simp [digitsToNat]
        omega
    · simp only [natToDigitsAux, if_neg h10]
      obtain ⟨hne, hdig, hval⟩ := ih (n / 10) (by omega)
      refine ⟨by simp [hne], ?_, ?_⟩
      · intro c hc
        rw [List.mem_append] at hc
        rcases hc with hc | hc
        · exact hdig c hc
        · simp only [List.mem_singleton] at hc
          subst hc
          exact (hexDigitChar_digit (by omega)).1
      · rw [digitsToNat_append_digit, hval]
        have := (hexDigitChar_digit (show n % 10 < 10 by omega)).2
        omega

theorem natToDigits_ne_nil (n : Nat) : natToDigits n ≠ [] :=
  (natToDigitsAux_spec _ _ (Nat.lt_succ_self n)).1

theorem natToDigits_digits (n : Nat) : ∀ c ∈ natToDigits n, c.isDigit = true :=
  (natToDigitsAux_spec _ _ (Nat.lt_succ_self n)).2.1

theorem digitsToNat_natToDigits (n : Nat) : digitsToNat (natToDigits n) = n :=
  (natToDigitsAux_spec _ _ (Nat.lt_succ_self n)).2.2

theorem takeDigits_none (rest : List Char) (h : NoDigitHead rest) :
    takeDigits rest = ([], rest) := by
  cases rest with
  | nil => rfl
  | cons c cs =>
    have hc : c.isDigit = false := h
    rw [takeDigits.eq_def]
    simp [hc]

theorem takeDigits_append (ds rest : List Char) (hds : ∀ c ∈ ds, c.isDigit = true)
    (h : NoDigitHead rest) : takeDigits (ds ++ rest) = (ds, rest) := by
  induction ds with
  | nil => simpa using takeDigits_none rest h
  | cons c ds ih =>
    have hc : c.isDigit = true := hds c (by simp)
    rw [List.cons_append, takeDigits.eq_def]
    simp [hc, ih (fun d hd => hds d (by simp [hd]))]

/-- A character that can start a printed JSON value. -/
def jsonStartChar (c : Char) : Prop :=
  c = 'n' ∨ c = 't' ∨ c = 'f' ∨ c = '"' ∨ c = '[' ∨ c = '\x7b' ∨ c = '-' ∨ c.isDigit = true

theorem printJson_head (j : Json) : ∃ c cs, printJson j = c :: cs ∧ jsonStartChar c := by
  cases j with
  | null => exact ⟨'n', _, rfl, Or.inl rfl⟩
  | bool b =>
    cases b
    · exact ⟨'f', _, rfl, by simp [jsonStartChar]⟩
    · exact ⟨'t', _, rfl, by simp [jsonStartChar]⟩
  | num n =>
    cases n with
    | ofNat m =>
      have h1 : printJson (.num (.ofNat m)) = natToDigits m := rfl
      obtain ⟨c, cs, hcs⟩ := List.exists_cons_of_ne_nil (natToDigits_ne_nil m)
      refine ⟨c, cs, by rw [h1, hcs], ?_⟩
      have : c.isDigit = true := natToDigits_digits m c (by rw [hcs]; simp)
      exact Or.inr (Or.inr (Or.inr (Or.inr (Or.inr (Or.inr (Or.inr this))))))
    | negSucc m =>
      exact ⟨'-', _, rfl, by simp [jsonStartChar]⟩
  | str s => exact ⟨'"', _, rfl, by simp [jsonStartChar]⟩
  | arr xs => exact ⟨'[', _, rfl, by simp [jsonStartChar]⟩
  | obj kvs => exact ⟨'\x7b', _, rfl, by simp [jsonStartChar]⟩

theorem jsonStartChar_ne_close {c : Char} (h : jsonStartChar c) :
    c ≠ ']' ∧ c ≠ '\x7d' := by
  rcases h with h | h | h | h | h | h | h | h
  all_goals first
    | (subst h; exact ⟨by decide, by decide⟩)
    | exact ⟨digit_ne h (by decide), digit_ne h (by decide)⟩

theorem wVal_pos (j : Json) : 1 ≤ wVal j := by
  cases j <;> simp [wVal]

theorem wItems_pos (xs : List Json) : 1 ≤ wItems xs := by
  cases xs with
  | nil => simp [wItems]
  | cons x xs => show 1 ≤ 1 + wVal x + wItems xs; omega

theorem wFields_pos (kvs : List (String × Json)) : 1 ≤ wFields kvs := by
  cases kvs with
  | nil => simp [wFields]
  | cons kv kvs =>
    obtain ⟨k, v⟩ := kv
    show 1 ≤ 1 + wVal v + wFields kvs
    omega

theorem printElems_cons_shape (x : Json) (xs : List Json) :
    ∃ t, printElems (x :: xs) = printJson x ++ t := by
  cases xs with
  | nil => exact ⟨[], by simp [printElems]⟩
  | cons y ys => exact ⟨',' :: printElems (y :: ys), rfl⟩

theorem parse_print : ∀ fuel,
    (∀ j rest, wVal j ≤ fuel → NoDigitHead rest →
      parseVal fuel (printJson j ++ rest) = some (j, rest)) ∧
    (∀ xs rest, xs ≠ [] → wItems xs ≤ fuel →
      parseItems fuel (printElems xs ++ ']' :: rest) = some (xs, rest)) ∧
    (∀ kvs rest, kvs ≠ [] → wFields kvs ≤ fuel →
      parseFields fuel (printFields kvs ++ '\x7d' :: rest) = some (kvs, rest)) := by
  intro fuel
  induction fuel with
  | zero =>
    refine ⟨?_, ?_, ?_⟩
    · intro j _ hw _; have := wVal_pos j; omega
    · intro xs _ _ hw; have := wItems_pos xs; omega
    · intro kvs _ _ hw; have := wFields_pos kvs; omega
  | succ fuel ih =>
    obtain ⟨ihV, ihI, ihF⟩ := ih
    refine ⟨?_, ?_, ?_⟩
    · intro j rest hw hnd
      cases j with
      | null =>
        show parseVal (fuel + 1) ('n' :: 'u' :: 'l' :: 'l' :: rest) = some (.null, rest)
        rw [parseVal.eq_def]
        simp [dropToken]
      | bool b =>
        cases b
        · show parseVal (fuel + 1) ('f' :: 'a' :: 'l' :: 's' :: 'e' :: rest) =
            some (.bool false, rest)
          rw [parseVal.eq_def]
          simp [dropToken]
        · show parseVal (fuel + 1) ('t' :: 'r' :: 'u' :: 'e' :: rest) =
            some (.bool true, rest)
          rw [parseVal.eq_def]
          simp [dropToken]
      | num n =>
        cases n with
        | ofNat m =>
          have hp : printJson (.num (.ofNat m)) = natToDigits m := rfl
          obtain ⟨c, cs', hcs⟩ := List.exists_cons_of_ne_nil (natToDigits_ne_nil m)
          have hcdig : c.isDigit = true := natToDigits_digits m c (by rw [hcs]; simp)
          have htd : takeDigits (c :: (cs' ++ rest)) = (natToDigits m, rest) := by
            have : c :: (cs' ++ rest) = natToDigits m ++ rest := by rw [hcs]; simp
            rw [this]
            exact takeDigits_append _ _ (natToDigits_digits m) hnd
          rw [hp, hcs, List.cons_append, parseVal.eq_def]
          simp only [if_neg (digit_ne hcdig (show ('n' : Char).isDigit = false from by decide)),
            if_neg (digit_ne hcdig (show ('t' : Char).isDigit = false from by decide)),
            if_neg (digit_ne hcdig (show ('f' : Char).isDigit = false from by decide)),
            if_neg (digit_ne hcdig (show ('"' : Char).isDigit = false from by decide)),
            if_neg (digit_ne hcdig (show ('[' : Char).isDigit = false from by decide)),
            if_neg (digit_ne hcdig (show ('\x7b' : Char).isDigit = false from by decide)),
            if_neg (digit_ne hcdig (show ('-' : Char).isDigit = false from by decide)),
            if_pos hcdig, htd, digitsToNat_natToDigits]
          rfl
        | negSucc m =>
          have hp : printJson (.num (.negSucc m)) = '-' :: natToDigits (m + 1) := rfl
          obtain ⟨c, cs', hcs⟩ := List.exists_cons_of_ne_nil (natToDigits_ne_nil (m + 1))
          have htd : takeDigits (natToDigits (m + 1) ++ rest) = (natToDigits (m + 1), rest) :=
            takeDigits_append _ _ (natToDigits_digits (m + 1)) hnd
          have hval : digitsToNat (c :: cs') = m + 1 := by
            rw [← hcs]; exact digitsToNat_natToDigits (m + 1)
          have hneg : -((m + 1 : Nat) : Int) = Int.negSucc m := by
            rw [Int.negSucc_eq]
            push_cast
            ring
          have htd2 : takeDigits (c :: (cs' ++ rest)) = (c :: cs', rest) := by
            have h1 : c :: (cs' ++ rest) = natToDigits (m + 1) ++ rest := by
              rw [hcs]; simp
            rw [h1, htd, hcs]
          rw [hp, List.cons_append, parseVal.eq_def]
          simp [hcs, htd2, hval, Int.negSucc_eq]
          try omega
      | str s =>
        show parseVal (fuel + 1)
          (('"' :: (escapeString s.data ++ ['"'])) ++ rest) = some (.str s, rest)
        rw [List.cons_append, List.append_assoc, List.singleton_append, parseVal.eq_def]
        simp [parseStringBody_escape]
      | arr xs =>
        cases xs with
        | nil =>
          show parseVal (fuel + 1) ('[' :: ']' :: rest) = some (.arr [], rest)
          rw [parseVal.eq_def]
          simp
        | cons x xs =>
          have hw' : wItems (x :: xs) ≤ fuel := by
            have : wVal (.arr (x :: xs)) = 1 + wItems (x :: xs) := rfl
            omega
          have hitems := ihI (x :: xs) rest (by simp) hw'
          obtain ⟨t, ht⟩ := printElems_cons_shape x xs
          obtain ⟨c, cs', hc, hstart⟩ := printJson_head x
          have hshape : printJson (.arr (x :: xs)) ++ rest =
              '[' :: c :: (cs' ++ t ++ (']' :: rest)) := by
            show ('[' :: (printElems (x :: xs) ++ [']'])) ++ rest = _
            rw [ht, hc]
            simp
          rw [hshape, parseVal.eq_def]
          simp only [if_neg (jsonStartChar_ne_close hstart).1]
          have hre : c :: (cs' ++ t ++ (']' :: rest)) =
              printElems (x :: xs) ++ ']' :: rest := by
            rw [ht, hc]; simp
          rw [hre, hitems]
          simp
      | obj kvs =>
        cases kvs with
        | nil =>
          show parseVal (fuel + 1) ('\x7b' :: '\x7d' :: rest) = some (.obj [], rest)
          rw [parseVal.eq_def]
          simp
        | cons kv kvs =>
          obtain ⟨k, v⟩ := kv
          have hw' : wFields ((k, v) :: kvs) ≤ fuel := by
            have : wVal (.obj ((k, v) :: kvs)) = 1 + wFields ((k, v) :: kvs) := rfl
            omega
          have hflds := ihF ((k, v) :: kvs) rest (by simp) hw'
          have hpf : ∃ u, printFields ((k, v) :: kvs) =
              '"' :: (escapeString k.data ++ ['"']) ++ u := by
            cases kvs with
            | nil =>
              refine ⟨':' :: printJson v, ?_⟩
              show printStr k ++ ':' :: printJson v = _
              simp [printStr]
            | cons kv2 kvs2 =>
              refine ⟨':' :: printJson v ++ ',' :: printFields (kv2 :: kvs2), ?_⟩
              show printStr k ++ ':' :: printJson v ++ ',' :: printFields (kv2 :: kvs2) = _
              simp [printStr]
          obtain ⟨u, hu⟩ := hpf
          have hshape : printJson (.obj ((k, v) :: kvs)) ++ rest =
              '\x7b' :: '"' :: (escapeString k.data ++ ['"'] ++ u ++ ('\x7d' :: rest)) := by
            show ('\x7b' :: (printFields ((k, v) :: kvs) ++ ['\x7d'])) ++ rest = _
            rw [hu]
            simp
          rw [hshape, parseVal.eq_def]
          simp only [reduceIte]
          have hre : '"' :: (escapeString k.data ++ ['"'] ++ u ++ ('\x7d' :: rest)) =
              printFields ((k, v) :: kvs) ++ '\x7d' :: rest := by
            rw [hu]; simp
          rw [hre, hflds]
          simp
    · intro xs rest hne hw
      cases xs with
      | nil => exact absurd rfl hne
      | cons x xs =>
        cases xs with
        | nil =>
          have hwx : wVal x ≤ fuel := by
            have h1 : wItems [x] = 1 + wVal x + 1 := rfl
            omega
          have hval := ihV x (']' :: rest) hwx (by show (']' : Char).isDigit = false; decide)
          show parseItems (fuel + 1) (printJson x ++ ']' :: rest) = some ([x], rest)
          rw [parseItems.eq_def]
          simp [hval]
        | cons y ys =>
          have hwx : wVal x ≤ fuel := by
            have h1 : wItems (x :: y :: ys) = 1 + wVal x + wItems (y :: ys) := rfl
            have := wItems_pos (y :: ys)
            omega
          have hwy : wItems (y :: ys) ≤ fuel := by
            have h1 : wItems (x :: y :: ys) = 1 + wVal x + wItems (y :: ys) := rfl
            have := wVal_pos x
            omega
          have hval := ihV x (',' :: (printElems (y :: ys) ++ ']' :: rest)) hwx
            (by show (',' : Char).isDigit = false; decide)
          have hrec := ihI (y :: ys) rest (by simp) hwy
          show parseItems (fuel + 1)
            ((printJson x ++ ',' :: printElems (y :: ys)) ++ ']' :: rest) = some (x :: y :: ys, rest)
          rw [List.append_assoc, List.cons_append, parseItems.eq_def]
          simp [hval, hrec]
    · intro kvs rest hne hw
      cases kvs with
      | nil => exact absurd rfl hne
      | cons kv kvs =>
        obtain ⟨k, v⟩ := kv
        cases kvs with
        | nil =>
          have hwv : wVal v ≤ fuel := by
            have h1 : wFields [(k, v)] = 1 + wVal v + 1 := rfl
            omega
          have hval := ihV v ('\x7d' :: rest) hwv
            (by show ('\x7d' : Char).isDigit = false; decide)
          have hstr := parseStringBody_escape k.data (':' :: (printJson v ++ '\x7d' :: rest))
          show parseFields (fuel + 1)
            (('"' :: (escapeString k.data ++ ['"']) ++ ':' :: printJson v) ++ '\x7d' :: rest) =
            some ([(k, v)], rest)
          have hsh : ('"' :: (escapeString k.data ++ ['"']) ++ ':' :: printJson v) ++
              '\x7d' :: rest =
              '"' :: (escapeString k.data ++ '"' :: ':' :: (printJson v ++ '\x7d' :: rest)) := by
            simp
          rw [hsh, parseFields.eq_def]
          simp [hstr, hval]
        | cons kv2 kvs2 =>
          have hwv : wVal v ≤ fuel := by
            have h1 : wFields ((k, v) :: kv2 :: kvs2) = 1 + wVal v + wFields (kv2 :: kvs2) := by
              obtain ⟨k2, v2⟩ := kv2; rfl
            have := wFields_pos (kv2 :: kvs2)
            omega
          have hwr : wFields (kv2 :: kvs2) ≤ fuel := by
            have h1 : wFields ((k, v) :: kv2 :: kvs2) = 1 + wVal v + wFields (kv2 :: kvs2) := by
              obtain ⟨k2, v2⟩ := kv2; rfl
            have := wVal_pos v
            omega
          have hval := ihV v (',' :: (printFields (kv2 :: kvs2) ++ '\x7d' :: rest)) hwv
            (by show (',' : Char).isDigit = false; decide)
          have hrec := ihF (kv2 :: kvs2) rest (by simp) hwr
          have hstr := parseStringBody_escape k.data
            (':' :: (printJson v ++ ',' :: (printFields (kv2 :: kvs2) ++ '\x7d' :: rest)))
          show parseFields (fuel + 1)
            (('"' :: (escapeString k.data ++ ['"']) ++ ':' :: printJson v ++
              ',' :: printFields (kv2 :: kvs2)) ++ '\x7d' :: rest) =
            some ((k, v) :: kv2 :: kvs2, rest)
          have hsh : ('"' :: (escapeString k.data ++ ['"']) ++ ':' :: printJson v ++
              ',' :: printFields (kv2 :: kvs2)) ++ '\x7d' :: rest =
              '"' :: (escapeString k.data ++ '"' :: ':' ::
                (printJson v ++ ',' :: (printFields (kv2 :: kvs2) ++ '\x7d' :: rest))) := by
            simp
          rw [hsh, parseFields.eq_def]
          simp [hstr, hval, hrec]

theorem wle_all : ∀ n,
    (∀ j : Json, sizeOf j ≤ n → wVal j ≤ 2 * (printJson j).length) ∧
    (∀ xs : List Json, sizeOf xs ≤ n → xs ≠ [] →
      wItems xs ≤ 2 * (printElems xs).length + 2) ∧
    (∀ kvs : List (String × Json), sizeOf kvs ≤ n → kvs ≠ [] →
      wFields kvs ≤ 2 * (printFields kvs).length + 2) := by
  intro n
  induction n with
  | zero =>
    refine ⟨?_, ?_, ?_⟩
    · intro j h; cases j <;> simp at h
    · intro xs h; cases xs <;> simp at h
    · intro kvs h; cases kvs <;> simp at h
  | succ n ih =>
    obtain ⟨ihV, ihI, ihF⟩ := ih
    refine ⟨?_, ?_, ?_⟩
    · intro j hsz
      cases j with
      | null => show 1 ≤ 2 * 4; omega
      | bool b =>
        cases b
        · show 1 ≤ 2 * 5; omega
        · show 1 ≤ 2 * 4; omega
      | num m =>
        have h1 : 1 ≤ (printJson (.num m)).length := by
          cases m with
          | ofNat k =>
            have := natToDigits_ne_nil k
            show 1 ≤ (natToDigits k).length
            cases hk : natToDigits k with
            | nil => exact absurd hk this
            | cons a l => simp
          | negSucc k => show 1 ≤ ('-' :: natToDigits (k + 1)).length; simp
        show wVal (.num m) ≤ 2 * (printJson (.num m)).length
        have : wVal (.num m) = 1 := rfl
        omega
      | str s =>
        show 1 ≤ 2 * ('"' :: (escapeString s.data ++ ['"'])).length
        simp
        omega
      | arr xs =>
        cases xs with
        | nil => show 1 + 1 ≤ 2 * 2; omega
        | cons x xs =>
          have hx : sizeOf (x :: xs) ≤ n := by
            simp only [Json.arr.sizeOf_spec] at hsz; omega
          have h1 := ihI (x :: xs) hx (by simp)
          have h2 : wVal (.arr (x :: xs)) = 1 + wItems (x :: xs) := rfl
          have h3 : (printJson (.arr (x :: xs))).length =
              (printElems (x :: xs)).length + 2 := by
            show ('[' :: (printElems (x :: xs) ++ [']'])).length = _
            simp
          omega
      | obj kvs =>
        cases kvs with
        | nil => show 1 + 1 ≤ 2 * 2; omega
        | cons kv kvs =>
          have hx : sizeOf (kv :: kvs) ≤ n := by
            simp only [Json.obj.sizeOf_spec] at hsz; omega
          have h1 := ihF (kv :: kvs) hx (by simp)
          have h2 : wVal (.obj (kv :: kvs)) = 1 + wFields (kv :: kvs) := rfl
          have h3 : (printJson (.obj (kv :: kvs))).length =
              (printFields (kv :: kvs)).length + 2 := by
            show ('\x7b' :: (printFields (kv :: kvs) ++ ['\x7d'])).length = _
            simp
          omega
    · intro xs hsz hne
      cases xs with
      | nil => exact absurd rfl hne
      | cons x xs =>
        have hx : sizeOf x ≤ n := by
          simp only [List.cons.sizeOf_spec] at hsz; omega
        have h1 := ihV x hx
        cases xs with
        | nil =>
          have h2 : wItems [x] = 1 + wVal x + 1 := rfl
          have h3 : (printElems [x]).length = (printJson x).length := rfl
          omega
        | cons y ys =>
          have hy : sizeOf (y :: ys) ≤ n := by
            simp only [List.cons.sizeOf_spec] at hsz ⊢; omega
          have h4 := ihI (y :: ys) hy (by simp)
          have h2 : wItems (x :: y :: ys) = 1 + wVal x + wItems (y :: ys) := rfl
          have h3 : (printElems (x :: y :: ys)).length =
              (printJson x).length + 1 + (printElems (y :: ys)).length := by
            show (printJson x ++ ',' :: printElems (y :: ys)).length = _
            simp
            omega
          omega
    · intro kvs hsz hne
      cases kvs with
      | nil => exact absurd rfl hne
      | cons kv kvs =>
        obtain ⟨k, v⟩ := kv
        have hv : sizeOf v ≤ n := by
          simp only [List.cons.sizeOf_spec, Prod.mk.sizeOf_spec] at hsz; omega
        have h1 := ihV v hv
        cases kvs with
        | nil =>
          have h2 : wFields [(k, v)] = 1 + wVal v + 1 := rfl
          have h3 : (printFields [(k, v)]).length =
              (printStr k).length + 1 + (printJson v).length := by
            show (printStr k ++ ':' :: printJson v).length = _
            simp
            omega
          omega
        | cons kv2 kvs2 =>
          have hy : sizeOf (kv2 :: kvs2) ≤ n := by
            simp only [List.cons.sizeOf_spec, Prod.mk.sizeOf_spec] at hsz ⊢; omega
          have h4 := ihF (kv2 :: kvs2) hy (by simp)
          have h2 : wFields ((k, v) :: kv2 :: kvs2) =
              1 + wVal v + wFields (kv2 :: kvs2) := by
            obtain ⟨k2, v2⟩ := kv2; rfl
          have h3 : (printFields ((k, v) :: kv2 :: kvs2)).length =
              (printStr k).length + 1 + (printJson v).length + 1 +
                (printFields (kv2 :: kvs2)).length := by
            show (printStr k ++ ':' :: printJson v ++ ',' :: printFields (kv2 :: kvs2)).length = _
            simp
            omega
          omega

theorem parseJson_print (j : Json) : parseJson ⟨printJson j⟩ = some j := by
  have hw : wVal j ≤ 2 * (printJson j).length + 1 := by
    have := (wle_all (sizeOf j)).1 j le_rfl
    omega
  have h := (parse_print (2 * (printJson j).length + 1)).1 j [] hw trivial
  rw [List.append_nil] at h
  show (match parseVal (2 * (printJson j).length + 1) (printJson j) with
    | some (v, []) => some v
    | _ => none) = some j
  rw [h]

theorem typeOfWire_typeWire (t : FigmaEventType) : typeOfWire (typeWire t) = some t := by
  cases t <;> rfl

theorem sourceOfWire_sourceWire (src : EventSource) :
    sourceOfWire (sourceWire src) = some src := by
  cases src <;> rfl

theorem jsonToMetadata_metadataToJson (m : EventMetadata) :
    jsonToMetadata (metadataToJson m) = some m := by
  obtain ⟨ei, ci, ts, src, si⟩ := m
  cases src <;> rfl

theorem jsonToEvent_eventToJson (e : FigmaEvent) : jsonToEvent (eventToJson e) = some e := by
  obtain ⟨t, m, p⟩ := e
  cases p with
  | none =>
    show jsonToEvent (.obj [("type", .str (typeWire t)), ("metadata", metadataToJson m)]) = _
    rw [jsonToEvent]
    simp [typeOfWire_typeWire, jsonToMetadata_metadataToJson]
  | some pl =>
    show jsonToEvent (.obj [("type", .str (typeWire t)), ("metadata", metadataToJson m),
      ("payload", pl)]) = _
    rw [jsonToEvent]
    simp [typeOfWire_typeWire, jsonToMetadata_metadataToJson]

/-! ## Exactly-once completion: behaviour of each service operation on the
pending map -/

theorem notMem_erase {l : List String} {a b : String} (h : a ∉ l) : a ∉ l.erase b :=
  fun hm => h (List.mem_of_mem_erase hm)

theorem countP_runUserHandlers (s : SvcState) (t : FigmaEventType) (cid : String) :
    (runUserHandlers s t).countP (Evt.completes cid) = 0 := by
  rw [List.countP_eq_zero]
  intro e he
  simp only [runUserHandlers, List.mem_map] at he
  obtain ⟨sub, _, rfl⟩ := he
  simp [Evt.completes]

theorem builtinEffect_notResponse (s : SvcState) (e : FigmaEvent)
    (h1 : isResolveBuiltin e.type = false) (h2 : e.type ≠ .UPDATE_NODE_ERROR) :
    builtinEffect s e = (s, []) := by
  simp [builtinEffect, h1, h2]

theorem builtinEffect_absent (s : SvcState) (e : FigmaEvent)
    (h : e.metadata.correlation_id ∉ s.pending) :
    builtinEffect s e = (s, []) := by
  simp [builtinEffect, h]

theorem notifyHandlers_absent (s : SvcState) (e : FigmaEvent)
    (h : e.metadata.correlation_id ∉ s.pending) :
    (notifyHandlers s e).1 = s ∧
      (notifyHandlers s e).2.countP (Evt.completes cid) = 0 := by
  simp [notifyHandlers, builtinEffect_absent s e h, countP_runUserHandlers]

theorem notifyHandlers_notResponse (s : SvcState) (e : FigmaEvent)
    (h1 : isResolveBuiltin e.type = false) (h2 : e.type ≠ .UPDATE_NODE_ERROR) :
    (notifyHandlers s e).1 = s ∧
      (notifyHandlers s e).2.countP (Evt.completes cid) = 0 := by
  simp [notifyHandlers, builtinEffect_notResponse s e h1 h2, countP_runUserHandlers]

theorem handleEvent_spec (s : SvcState) (e : FigmaEvent) (cid : String)
    (hnd : s.pending.Nodup) (hne : "" ∉ s.pending) :
    (handleEvent s e).1.pending.Nodup ∧ "" ∉ (handleEvent s e).1.pending ∧
    (cid ∉ s.pending → (handleEvent s e).2.countP (Evt.completes cid) = 0 ∧
      cid ∉ (handleEvent s e).1.pending) ∧
    (cid ∈ s.pending → ((handleEvent s e).2.countP (Evt.completes cid) = 1 ∧
      cid ∉ (handleEvent s e).1.pending) ∨
      ((handleEvent s e).2.countP (Evt.completes cid) = 0 ∧
      cid ∈ (handleEvent s e).1.pending)) := by
  by_cases hg : e.metadata.correlation_id ≠ "" ∧
      s.pending.contains e.metadata.correlation_id
  · rw [handleEvent, if_pos hg]
    have hmem : e.metadata.correlation_id ∈ s.pending := by
      simpa using hg.2
    refine ⟨hnd.erase _, notMem_erase hne, ?_, ?_⟩
    · intro habs
      constructor
      · have : Evt.completes cid (.resolved e.metadata.correlation_id) = false := by
          simp only [Evt.completes, decide_eq_false_iff_not]
          intro hcc
          exact habs (hcc ▸ hmem)
        simp [List.countP_cons, this]
      · exact notMem_erase habs
    · intro hmem2
      by_cases hcc : e.metadata.correlation_id = cid
      · left
        constructor
        · simp [List.countP_cons, Evt.completes, hcc]
        · rw [hcc]
          simp [List.Nodup.mem_erase_iff hnd]
      · right
        constructor
        · simp [List.countP_cons, Evt.completes, hcc]
        · rw [List.Nodup.mem_erase_iff hnd]
          exact ⟨fun he2 => hcc he2.symm, hmem2⟩
  · rw [handleEvent, if_neg hg]
    have habs : e.metadata.correlation_id ∉ s.pending := by
      by_cases hb : e.metadata.correlation_id = ""
      · rw [hb]; exact hne
      · intro hm
        exact hg ⟨hb, by simpa using hm⟩
    obtain ⟨h1, h2⟩ := @notifyHandlers_absent cid s e habs
    rw [h1, h2]
    exact ⟨hnd, hne, fun h => ⟨rfl, h⟩, fun h => Or.inr ⟨rfl, h⟩⟩

theorem countP_runUserHandlersW (s : SvcState) (ty : Option FigmaEventType)
    (cid : String) :
    (runUserHandlersW s ty).countP (Evt.completes cid) = 0 := by
  rw [List.countP_eq_zero]
  intro e he
  simp only [runUserHandlersW, List.mem_map] at he
  obtain ⟨sub, _, rfl⟩ := he
  simp [Evt.completes]

theorem runUserHandlersW_eq (s : SvcState) (t : FigmaEventType) :
    runUserHandlersW s (some t) = runUserHandlers s t := by
  rw [runUserHandlersW, runUserHandlers]
  congr 1
  apply List.filter_congr
  intro a _
  simp

theorem handleEvent_agrees (s : SvcState) (e : FigmaEvent) :
    handleEvent s e = handleEventW s (some e.type) e.metadata.correlation_id := by
  rw [handleEvent, handleEventW]
  split_ifs with h
  · rfl
  · show notifyHandlers s e =
      notifyHandlersW s (some e.type) e.metadata.correlation_id
    rw [notifyHandlers, notifyHandlersW, runUserHandlersW_eq]
    rfl

theorem builtinEffectW_absent (s : SvcState) (ty : Option FigmaEventType)
    (c : String) (h : c ∉ s.pending) : builtinEffectW s ty c = (s, []) := by
  cases ty with
  | none => rfl
  | some t => simp [builtinEffectW, h]

theorem notifyHandlersW_absent {cid : String} (s : SvcState)
    (ty : Option FigmaEventType) (c : String) (h : c ∉ s.pending) :
    (notifyHandlersW s ty c).1 = s ∧
      (notifyHandlersW s ty c).2.countP (Evt.completes cid) = 0 := by
  simp [notifyHandlersW, builtinEffectW_absent s ty c h, countP_runUserHandlersW]

theorem handleEventW_spec (s : SvcState) (ty : Option FigmaEventType)
    (c cid : String) (hnd : s.pending.Nodup) (hne : "" ∉ s.pending) :
    (handleEventW s ty c).1.pending.Nodup ∧ "" ∉ (handleEventW s ty c).1.pending ∧
    (cid ∉ s.pending → (handleEventW s ty c).2.countP (Evt.completes cid) = 0 ∧
      cid ∉ (handleEventW s ty c).1.pending) ∧
    (cid ∈ s.pending → ((handleEventW s ty c).2.countP (Evt.completes cid) = 1 ∧
      cid ∉ (handleEventW s ty c).1.pending) ∨
      ((handleEventW s ty c).2.countP (Evt.completes cid) = 0 ∧
      cid ∈ (handleEventW s ty c).1.pending)) := by
  by_cases hg : c ≠ "" ∧ s.pending.contains c
  · rw [handleEventW, if_pos hg]
    have hmem : c ∈ s.pending := by
      simpa using hg.2
    refine ⟨hnd.erase _, notMem_erase hne, ?_, ?_⟩
    · intro habs
      constructor
      · have : Evt.completes cid (.resolved c) = false := by
          simp only [Evt.completes, decide_eq_false_iff_not]
          intro hcc
          exact habs (hcc ▸ hmem)
        simp [List.countP_cons, this]
      · exact notMem_erase habs
    · intro hmem2
      by_cases hcc : c = cid
      · left
        constructor
        · simp [List.countP_cons, Evt.completes, hcc]
        · rw [hcc]
          simp [List.Nodup.mem_erase_iff hnd]
      · right
        constructor
        · simp [List.countP_cons, Evt.completes, hcc]
        · rw [List.Nodup.mem_erase_iff hnd]
          exact ⟨fun he2 => hcc he2.symm, hmem2⟩
  · rw [handleEventW, if_neg hg]
    have habs : c ∉ s.pending := by
      by_cases hb : c = ""
      · rw [hb]; exact hne
      · intro hm
        exact hg ⟨hb, by simpa using hm⟩
    obtain ⟨h1, h2⟩ := @notifyHandlersW_absent cid s ty c habs
    rw [h1, h2]
    exact ⟨hnd, hne, fun h => ⟨rfl, h⟩, fun h => Or.inr ⟨rfl, h⟩⟩

theorem onTimeout_spec (s : SvcState) (c cid : String)
    (hnd : s.pending.Nodup) (hne : "" ∉ s.pending) :
    (onTimeout s c).1.pending.Nodup ∧ "" ∉ (onTimeout s c).1.pending ∧
    (cid ∉ s.pending → (onTimeout s c).2.countP (Evt.completes cid) = 0 ∧
      cid ∉ (onTimeout s c).1.pending) ∧
    (cid ∈ s.pending → ((onTimeout s c).2.countP (Evt.completes cid) = 1 ∧
      cid ∉ (onTimeout s c).1.pending) ∨
      ((onTimeout s c).2.countP (Evt.completes cid) = 0 ∧
      cid ∈ (onTimeout s c).1.pending)) ∧
    (cid ∈ s.pending → c = cid →
      (onTimeout s c).2.countP (Evt.completes cid) = 1 ∧
      cid ∉ (onTimeout s c).1.pending) := by
  by_cases hg : s.pending.contains c
  · rw [onTimeout, if_pos hg]
    have hmem : c ∈ s.pending := by simpa using hg
    refine ⟨hnd.erase _, notMem_erase hne, ?_, ?_, ?_⟩
    · intro habs
      constructor
      · have : Evt.completes cid (.rejectedTimeout c) = false := by
          simp only [Evt.completes, decide_eq_false_iff_not]
          intro hcc
          exact habs (hcc ▸ hmem)
        simp [List.countP_cons, this]
      · exact notMem_erase habs
    · intro hmem2
      by_cases hcc : c = cid
      · left
        constructor
        · simp [List.countP_cons, Evt.completes, hcc]
        · rw [hcc]
          simp [List.Nodup.mem_erase_iff hnd]
      · right
        constructor
        · simp [List.countP_cons, Evt.completes, hcc]
        · rw [List.Nodup.mem_erase_iff hnd]
          exact ⟨fun he2 => hcc he2.symm, hmem2⟩
    · intro hmem2 hcc
      constructor
      · simp [List.countP_cons, Evt.completes, hcc]
      · rw [hcc]
        simp [List.Nodup.mem_erase_iff hnd]
  · rw [onTimeout, if_neg hg]
    have habs : c ∉ s.pending := by simpa using hg
    refine ⟨hnd, hne, fun h => ⟨rfl, h⟩, fun h => Or.inr ⟨rfl, h⟩, ?_⟩
    intro hmem2 hcc
    exact absurd (hcc ▸ hmem2) habs

theorem countP_rejectedClosed_map (l : List String) (cid : String) :
    (l.map Evt.rejectedClosed).countP (Evt.completes cid) = l.count cid := by
  induction l with
  | nil => rfl
  | cons a l ih =>
    by_cases hc : a = cid
    · simp [List.countP_cons, Evt.completes, hc, List.count_cons, ih]
    · simp [List.countP_cons, Evt.completes, hc, List.count_cons, ih]

theorem sendEventInternal_pending (s : SvcState) (e : FigmaEvent)
    (h1 : isResolveBuiltin e.type = false) (h2 : e.type ≠ .UPDATE_NODE_ERROR) :
    (sendEventInternal s e).1 = s ∧
      (sendEventInternal s e).2.countP (Evt.completes cid) = 0 := by
  rw [sendEventInternal]
  split_ifs with hw hf hp
  · exact ⟨rfl, rfl⟩
  · exact ⟨rfl, rfl⟩
  · simp [List.countP_cons, Evt.completes]
  · obtain ⟨hn1, hn2⟩ := @notifyHandlers_notResponse cid s e h1 h2
    refine ⟨hn1, ?_⟩
    simp only [List.countP_cons, hn2]
    simp [Evt.completes]

theorem disconnectCall_spec (s : SvcState) (m : EventMetadata) (cid : String)
    (hnd : s.pending.Nodup) :
    (disconnectCall s m).1.pending = [] ∧
    (cid ∉ s.pending → (disconnectCall s m).2.countP (Evt.completes cid) = 0) ∧
    (cid ∈ s.pending → (disconnectCall s m).2.countP (Evt.completes cid) = 1) := by
  have hsend : (if s.wsOpen then sendEventInternal s (disconnectRequestEvent m)
      else (s, [])).1 = s ∧
      (if s.wsOpen then sendEventInternal s (disconnectRequestEvent m)
      else (s, [])).2.countP (Evt.completes cid) = 0 := by
    split_ifs
    · exact sendEventInternal_pending s _ rfl
        (show FigmaEventType.DISCONNECT ≠ FigmaEventType.UPDATE_NODE_ERROR from by decide)
    · exact ⟨rfl, rfl⟩
  obtain ⟨hp1, hp2⟩ := hsend
  rw [disconnectCall]
  simp only [rejectAllPendingRequests]
  refine ⟨by trivial, ?_, ?_⟩
  · intro habs
    rw [List.countP_append, hp2, countP_rejectedClosed_map, hp1]
    simp [List.count_eq_zero.mpr habs]
  · intro hmem
    rw [List.countP_append, hp2, countP_rejectedClosed_map, hp1]
    simp [List.count_eq_one_of_mem hnd hmem]

theorem reconnectAfterClose_spec (p : SvcState × List Evt) (cid : String) :
    (reconnectAfterClose p).1.pending = p.1.pending ∧
      (reconnectAfterClose p).2.countP (Evt.completes cid) =
        p.2.countP (Evt.completes cid) := by
  rw [reconnectAfterClose]
  split_ifs
  · constructor
    · rfl
    · rw [List.countP_append]
      simp [Evt.completes]
  · exact ⟨rfl, rfl⟩

theorem handleClose_pending (s : SvcState) (code : Int) (reason : String)
    (wasClean : Bool) (m : EventMetadata) (cid : String) :
    (handleClose s code reason wasClean m).1.pending = s.pending ∧
      (handleClose s code reason wasClean m).2.countP (Evt.completes cid) = 0 := by
  rw [handleClose]
  split_ifs with hi
  · exact ⟨rfl, rfl⟩
  · obtain ⟨hn1, hn2⟩ := @notifyHandlers_notResponse cid
      {s with wsOpen := false, pingActive := false}
      (closeDisconnectEvent code reason wasClean m) rfl
      (show FigmaEventType.DISCONNECT ≠ FigmaEventType.UPDATE_NODE_ERROR from by decide)
    obtain ⟨hr1, hr2⟩ := reconnectAfterClose_spec
      (notifyHandlers {s with wsOpen := false, pingActive := false}
        (closeDisconnectEvent code reason wasClean m)) cid
    rw [hr1, hr2, hn1, hn2]
    exact ⟨rfl, rfl⟩

theorem step_spec (s : SvcState) (a : Act) (cid : String)
    (hnd : s.pending.Nodup) (hne : "" ∉ s.pending) :
    (step s a).1.pending.Nodup ∧ "" ∉ (step s a).1.pending ∧
    (cid ∉ s.pending → (step s a).2.countP (Evt.completes cid) = 0 ∧
      cid ∉ (step s a).1.pending) ∧
    (cid ∈ s.pending → ((step s a).2.countP (Evt.completes cid) = 1 ∧
      cid ∉ (step s a).1.pending) ∨
      ((step s a).2.countP (Evt.completes cid) = 0 ∧ cid ∈ (step s a).1.pending)) ∧
    (cid ∈ s.pending → a = .timerFire cid →
      (step s a).2.countP (Evt.completes cid) = 1 ∧ cid ∉ (step s a).1.pending) := by
  cases a with
  | inbound e =>
    obtain ⟨h1, h2, h3, h4⟩ := handleEvent_spec s e cid hnd hne
    exact ⟨h1, h2, h3, h4, fun _ heq => nomatch heq⟩
  | rawFrame f =>
    have hst : step s (.rawFrame f) = onMessage s f := rfl
    cases hp : jsParse f with
    | none =>
      have hom : onMessage s f = (s, []) := by rw [onMessage, hp]
      rw [hst, hom]
      exact ⟨hnd, hne, fun h => ⟨rfl, h⟩, fun h => Or.inr ⟨rfl, h⟩,
        fun _ heq => nomatch heq⟩
    | some j =>
      cases hc : looseCorrelationId j with
      | none =>
        have hom : onMessage s f = (s, []) := by
          rw [onMessage, hp]
          simp [hc]
        rw [hst, hom]
        exact ⟨hnd, hne, fun h => ⟨rfl, h⟩, fun h => Or.inr ⟨rfl, h⟩,
          fun _ heq => nomatch heq⟩
      | some c =>
        have hom : onMessage s f = handleEventW s (looseType j) c := by
          rw [onMessage, hp]
          simp [hc]
        rw [hst, hom]
        obtain ⟨h1, h2, h3, h4⟩ := handleEventW_spec s (looseType j) c cid hnd hne
        exact ⟨h1, h2, h3, h4, fun _ heq => nomatch heq⟩
  | timerFire c =>
    obtain ⟨h1, h2, h3, h4, h5⟩ := onTimeout_spec s c cid hnd hne
    refine ⟨h1, h2, h3, h4, fun hm heq => ?_⟩
    have hc : c = cid := by cases heq; rfl
    exact h5 hm hc
  | disconnect m =>
    obtain ⟨h1, h2, h3⟩ := disconnectCall_spec s m cid hnd
    have hst : step s (.disconnect m) = disconnectCall s m := rfl
    rw [hst]
    refine ⟨?_, ?_, ?_, ?_, ?_⟩
    · rw [h1]; exact List.nodup_nil
    · rw [h1]; exact List.not_mem_nil ""
    · intro habs
      exact ⟨h2 habs, by rw [h1]; exact List.not_mem_nil cid⟩
    · intro hmem
      exact Or.inl ⟨h3 hmem, by rw [h1]; exact List.not_mem_nil cid⟩
    · intro _ heq; exact nomatch heq
  | closeEvt c r w m =>
    obtain ⟨h1, h2⟩ := handleClose_pending s c r w m cid
    have hst : step s (.closeEvt c r w m) = handleClose s c r w m := rfl
    rw [hst]
    refine ⟨?_, ?_, ?_, ?_, ?_⟩
    · rw [h1]; exact hnd
    · rw [h1]; exact hne
    · intro habs
      exact ⟨h2, by rw [h1]; exact habs⟩
    · intro hmem
      exact Or.inr ⟨h2, by rw [h1]; exact hmem⟩
    · intro _ heq; exact nomatch heq

theorem run_spec (tr : List Act) : ∀ (s : SvcState) (cid : String),
    s.pending.Nodup → "" ∉ s.pending →
    (cid ∉ s.pending → (run s tr).2.countP (Evt.completes cid) = 0) ∧
    (cid ∈ s.pending → (run s tr).2.countP (Evt.completes cid) ≤ 1 ∧
      ((.timerFire cid) ∈ tr → (run s tr).2.countP (Evt.completes cid) = 1)) := by
  induction tr with
  | nil =>
    intro s cid _ _
    constructor
    · intro _; rfl
    · intro _
      exact ⟨by show List.countP _ [] ≤ 1; simp, fun hmem => absurd hmem (List.not_mem_nil _)⟩
  | cons a tr ih =>
    intro s cid hnd hne
    obtain ⟨h1, h2, h3, h4, h5⟩ := step_spec s a cid hnd hne
    obtain ⟨ih0, ih1⟩ := ih (step s a).1 cid h1 h2
    have hrun : (run s (a :: tr)).2 = (step s a).2 ++ (run (step s a).1 tr).2 := rfl
    constructor
    · intro habs
      obtain ⟨c0, cm⟩ := h3 habs
      rw [hrun, List.countP_append, c0, ih0 cm]
    · intro hmem
      rcases h4 hmem with ⟨c1, cm⟩ | ⟨c0, cm⟩
      · constructor
        · rw [hrun, List.countP_append, c1, ih0 cm]
        · intro _
          rw [hrun, List.countP_append, c1, ih0 cm]
      · constructor
        · rw [hrun, List.countP_append, c0]
          have := (ih1 cm).1
          omega
        · intro htm
          rcases List.mem_cons.mp htm with heq | htl
          · obtain ⟨c1, _⟩ := h5 hmem heq.symm
            rw [c1] at c0
            exact absurd c0 (by omega)
          · rw [hrun, List.countP_append, c0, (ih1 cm).2 htl]

theorem run_append (l1 : List Act) : ∀ (s : SvcState) (l2 : List Act),
    run s (l1 ++ l2) =
      ((run (run s l1).1 l2).1, (run s l1).2 ++ (run (run s l1).1 l2).2) := by
  induction l1 with
  | nil =>
    intro s l2
    simp [run]
  | cons a l ih =>
    intro s l2
    show ((run (step s a).1 (l ++ l2)).1,
        (step s a).2 ++ (run (step s a).1 (l ++ l2)).2) =
      ((run (run s (a :: l)).1 l2).1,
        (run s (a :: l)).2 ++ (run (run s (a :: l)).1 l2).2)
    rw [ih (step s a).1 l2]
    show ((run (run (step s a).1 l).1 l2).1,
        (step s a).2 ++ ((run (step s a).1 l).2 ++ (run (run (step s a).1 l).1 l2).2)) =
      ((run (run (step s a).1 l).1 l2).1,
        ((step s a).2 ++ (run (step s a).1 l).2) ++ (run (run (step s a).1 l).1 l2).2)
    rw [List.append_assoc]

theorem run_cons_nop (s : SvcState) (a : Act) (l : List Act)
    (h : step s a = (s, [])) : run s (a :: l) = run s l := by
  simp [run, h]

/-! ## Field preservation and reconnect-scheduling behaviour -/

theorem builtinEffect_preserves (s : SvcState) (e : FigmaEvent) :
    (builtinEffect s e).1.wsOpen = s.wsOpen ∧
    (builtinEffect s e).1.handlersInstalled = s.handlersInstalled ∧
    (builtinEffect s e).1.userHandlers = s.userHandlers ∧
    (builtinEffect s e).1.builtins = s.builtins ∧
    (builtinEffect s e).1.sessionId = s.sessionId ∧
    (builtinEffect s e).1.reconnectAttempts = s.reconnectAttempts ∧
    (builtinEffect s e).1.pingActive = s.pingActive ∧
    (builtinEffect s e).1.sendFails = s.sendFails := by
  rw [builtinEffect]
  split_ifs <;> exact ⟨rfl, rfl, rfl, rfl, rfl, rfl, rfl, rfl⟩

theorem notifyHandlers_sessionId (s : SvcState) (e : FigmaEvent) :
    (notifyHandlers s e).1.sessionId = s.sessionId :=
  (builtinEffect_preserves s e).2.2.2.2.1

theorem notifyHandlers_reconnectAttempts (s : SvcState) (e : FigmaEvent) :
    (notifyHandlers s e).1.reconnectAttempts = s.reconnectAttempts :=
  (builtinEffect_preserves s e).2.2.2.2.2.1

theorem notifyHandlers_handlersInstalled (s : SvcState) (e : FigmaEvent) :
    (notifyHandlers s e).1.handlersInstalled = s.handlersInstalled :=
  (builtinEffect_preserves s e).2.1

theorem sendEventInternal_sessionId (s : SvcState) (e : FigmaEvent) :
    (sendEventInternal s e).1.sessionId = s.sessionId := by
  rw [sendEventInternal]
  split_ifs
  · rfl
  · rfl
  · rfl
  · exact notifyHandlers_sessionId s e

theorem countP_runUserHandlers_any (s : SvcState) (t : FigmaEventType) (p : Evt → Bool)
    (h : ∀ i ok, p (Evt.handlerRun i ok) = false) :
    (runUserHandlers s t).countP p = 0 := by
  rw [List.countP_eq_zero]
  intro e he
  simp only [runUserHandlers, List.mem_map] at he
  obtain ⟨sub, _, rfl⟩ := he
  simp [h]

theorem countP_notify_isReconnect (s : SvcState) (e : FigmaEvent) :
    (notifyHandlers s e).2.countP Evt.isReconnect = 0 := by
  rw [notifyHandlers]
  rw [List.countP_append, countP_runUserHandlers_any _ _ _ (fun _ _ => rfl)]
  rw [builtinEffect]
  split_ifs <;> rfl

theorem countP_send_isReconnect (s : SvcState) (e : FigmaEvent) :
    (sendEventInternal s e).2.countP Evt.isReconnect = 0 := by
  rw [sendEventInternal]
  split_ifs
  · rfl
  · rfl
  · rfl
  · rw [List.countP_cons]
    rw [countP_notify_isReconnect]
    rfl

theorem countP_rejectedClosed_isReconnect (l : List String) :
    (l.map Evt.rejectedClosed).countP Evt.isReconnect = 0 := by
  rw [List.countP_eq_zero]
  intro e he
  simp only [List.mem_map] at he
  obtain ⟨c, _, rfl⟩ := he
  simp [Evt.isReconnect]

theorem countP_disconnect_isReconnect (s : SvcState) (m : EventMetadata) :
    (disconnectCall s m).2.countP Evt.isReconnect = 0 := by
  rw [disconnectCall]
  simp only [rejectAllPendingRequests]
  rw [List.countP_append]
  have h1 : (if s.wsOpen then sendEventInternal s (disconnectRequestEvent m)
      else (s, [])).2.countP Evt.isReconnect = 0 := by
    split_ifs
    · exact countP_send_isReconnect s _
    · rfl
  rw [h1, countP_rejectedClosed_isReconnect]

theorem handleClose_spec (s : SvcState) (code : Int) (reason : String) (wasClean : Bool)
    (m : EventMetadata) (hi : s.handlersInstalled = true) :
    (handleClose s code reason wasClean m).1.pending = s.pending ∧
    (handleClose s code reason wasClean m).1.handlersInstalled = true ∧
    (handleClose s code reason wasClean m).1.sessionId = s.sessionId ∧
    (handleClose s code reason wasClean m).2.countP Evt.isReconnect =
      (if s.reconnectAttempts < maxReconnectAttempts then 1 else 0) ∧
    (handleClose s code reason wasClean m).1.reconnectAttempts =
      (if s.reconnectAttempts < maxReconnectAttempts then s.reconnectAttempts + 1
       else s.reconnectAttempts) ∧
    (s.reconnectAttempts < maxReconnectAttempts →
      Evt.reconnectScheduled (s.reconnectAttempts + 1)
        (reconnectDelayFor (s.reconnectAttempts + 1)) ∈
        (handleClose s code reason wasClean m).2) := by
  have hnstate : (notifyHandlers {s with wsOpen := false, pingActive := false}
      (closeDisconnectEvent code reason wasClean m)).1 =
      {s with wsOpen := false, pingActive := false} :=
    (@notifyHandlers_notResponse "" {s with wsOpen := false, pingActive := false}
      (closeDisconnectEvent code reason wasClean m)
      (show isResolveBuiltin (closeDisconnectEvent code reason wasClean m).type = false from rfl)
      (show FigmaEventType.DISCONNECT ≠ FigmaEventType.UPDATE_NODE_ERROR from by decide)).1
  have hncount : (notifyHandlers {s with wsOpen := false, pingActive := false}
      (closeDisconnectEvent code reason wasClean m)).2.countP Evt.isReconnect = 0 :=
    countP_notify_isReconnect _ _
  rw [handleClose]
  rw [if_neg (show ¬((!s.handlersInstalled) = true) from by rw [hi]; decide)]
  unfold reconnectAfterClose
  rw [hnstate]
  have hra : ({s with wsOpen := false, pingActive := false} : SvcState).reconnectAttempts =
      s.reconnectAttempts := rfl
  rw [hra]
  by_cases hlt : s.reconnectAttempts < maxReconnectAttempts
  · rw [if_pos hlt, if_pos hlt, if_pos hlt]
    refine ⟨rfl, hi, rfl, ?_, rfl, ?_⟩
    · rw [List.countP_append, hncount]
      rfl
    · intro _
      simp
  · rw [if_neg hlt, if_neg hlt, if_neg hlt]
    rw [hnstate]
    exact ⟨rfl, hi, rfl, hncount, rfl, fun h => absurd h hlt⟩

theorem run_closes (m : EventMetadata) (code : Int) (reason : String) (w : Bool) :
    ∀ (n : Nat) (s : SvcState), s.handlersInstalled = true →
      (run s (List.replicate n (.closeEvt code reason w m))).2.countP Evt.isReconnect =
        min n (maxReconnectAttempts - s.reconnectAttempts) := by
  intro n
  induction n with
  | zero => intro s _; simp [run]
  | succ n ih =>
    intro s hi
    obtain ⟨hp, hi2, hsid, hcnt, hatt, hmem⟩ := handleClose_spec s code reason w m hi
    rw [List.replicate_succ]
    have hrun : (run s (.closeEvt code reason w m ::
        List.replicate n (.closeEvt code reason w m))).2 =
        (handleClose s code reason w m).2 ++
          (run (handleClose s code reason w m).1
            (List.replicate n (.closeEvt code reason w m))).2 := rfl
    rw [hrun, List.countP_append, hcnt, ih _ hi2, hatt]
    by_cases hlt : s.reconnectAttempts < maxReconnectAttempts
    · rw [if_pos hlt, if_pos hlt]
      simp only [maxReconnectAttempts] at *
      omega
    · rw [if_neg hlt, if_neg hlt]
      simp only [maxReconnectAttempts] at *
      omega

/-! ## Session-id preservation: only `connect` assigns `this.sessionId` -/

theorem onTimeout_sessionId (s : SvcState) (c : String) :
    (onTimeout s c).1.sessionId = s.sessionId := by
  rw [onTimeout]; split_ifs <;> rfl

theorem handleEvent_sessionId (s : SvcState) (e : FigmaEvent) :
    (handleEvent s e).1.sessionId = s.sessionId := by
  rw [handleEvent]
  split_ifs
  · rfl
  · exact notifyHandlers_sessionId s e

theorem disconnectCall_sessionId (s : SvcState) (m : EventMetadata) :
    (disconnectCall s m).1.sessionId = s.sessionId := by
  show (if s.wsOpen then sendEventInternal s (disconnectRequestEvent m)
    else (s, [])).1.sessionId = s.sessionId
  split_ifs
  · exact sendEventInternal_sessionId s _
  · rfl

theorem reconnectAfterClose_sessionId (p : SvcState × List Evt) :
    (reconnectAfterClose p).1.sessionId = p.1.sessionId := by
  unfold reconnectAfterClose
  split_ifs <;> rfl

theorem handleClose_sessionId (s : SvcState) (code : Int) (reason : String)
    (w : Bool) (m : EventMetadata) :
    (handleClose s code reason w m).1.sessionId = s.sessionId := by
  rw [handleClose]
  split_ifs
  · rfl
  · exact (reconnectAfterClose_sessionId _).trans (notifyHandlers_sessionId _ _)

theorem builtinEffectW_sessionId (s : SvcState) (ty : Option FigmaEventType)
    (c : String) : (builtinEffectW s ty c).1.sessionId = s.sessionId := by
  cases ty with
  | none => rfl
  | some t =>
    simp only [builtinEffectW]
    split_ifs <;> rfl

theorem notifyHandlersW_sessionId (s : SvcState) (ty : Option FigmaEventType)
    (c : String) : (notifyHandlersW s ty c).1.sessionId = s.sessionId :=
  builtinEffectW_sessionId s ty c

theorem handleEventW_sessionId (s : SvcState) (ty : Option FigmaEventType)
    (c : String) : (handleEventW s ty c).1.sessionId = s.sessionId := by
  rw [handleEventW]
  split_ifs
  · rfl
  · exact notifyHandlersW_sessionId s ty c

theorem step_sessionId (s : SvcState) (a : Act) :
    (step s a).1.sessionId = s.sessionId := by
  cases a with
  | inbound e => exact handleEvent_sessionId s e
  | rawFrame f =>
    show (onMessage s f).1.sessionId = s.sessionId
    cases hp : jsParse f with
    | none =>
      have hom : onMessage s f = (s, []) := by rw [onMessage, hp]
      rw [hom]
    | some j =>
      cases hc : looseCorrelationId j with
      | none =>
        have hom : onMessage s f = (s, []) := by
          rw [onMessage, hp]
          simp [hc]
        rw [hom]
      | some c =>
        have hom : onMessage s f = handleEventW s (looseType j) c := by
          rw [onMessage, hp]
          simp [hc]
        rw [hom]
        exact handleEventW_sessionId s (looseType j) c
  | timerFire c => exact onTimeout_sessionId s c
  | disconnect m => exact disconnectCall_sessionId s m
  | closeEvt c r w m => exact handleClose_sessionId s c r w m

theorem handleOpen_sessionId (s : SvcState) (m : EventMetadata) :
    (handleOpen s m).1.sessionId = s.sessionId := by
  show (sendEventInternal {s with wsOpen := true, reconnectAttempts := 0} _).1.sessionId =
    s.sessionId
  exact sendEventInternal_sessionId _ _

theorem connectCall_sessionId (s : SvcState) (f : String) :
    (connectCall s f).1.sessionId = f := by
  rw [connectCall]
  split_ifs <;> rfl

/-! ## Outbound local echo (`sendEventInternal` → `notifyHandlers`) -/

theorem sendEventInternal_echo (s : SvcState) (e : FigmaEvent)
    (ho : s.wsOpen = true) (hf : s.sendFails = false)
    (hp : ¬(e.type = .PING ∨ e.type = .PONG)) :
    sendEventInternal s e =
      ((notifyHandlers s e).1, .wrote (stringify e) :: (notifyHandlers s e).2) := by
  rw [sendEventInternal, ho, hf]
  simp only [Bool.not_true, Bool.false_eq_true, if_false, if_neg hp]

theorem sendEventInternal_pingpong (s : SvcState) (e : FigmaEvent)
    (ho : s.wsOpen = true) (hf : s.sendFails = false)
    (hp : e.type = .PING ∨ e.type = .PONG) :
    sendEventInternal s e = (s, [.wrote (stringify e)]) := by
  rw [sendEventInternal, ho, hf]
  simp only [Bool.not_true, Bool.false_eq_true, if_false, if_pos hp]

theorem sendEventInternalR_sent (s : SvcState) (e : FigmaEvent)
    (ho : s.wsOpen = true) (hf : s.sendFails = false) :
    (sendEventInternalR s e).2 = .sent := by
  rw [sendEventInternalR, ho, hf]
  simp

theorem runUserHandlers_mem (s : SvcState) (t : FigmaEventType) (sub : Subscription)
    (hm : sub ∈ s.userHandlers) (ht : sub.eventType = t) :
    Evt.handlerRun sub.handlerId (!sub.throws) ∈ runUserHandlers s t := by
  rw [runUserHandlers]
  exact List.mem_map_of_mem _ (List.mem_filter.mpr ⟨hm, by simp [ht]⟩)

theorem notifyHandlers_mem (s : SvcState) (e : FigmaEvent) (sub : Subscription)
    (hm : sub ∈ s.userHandlers) (ht : sub.eventType = e.type) :
    Evt.handlerRun sub.handlerId (!sub.throws) ∈ (notifyHandlers s e).2 := by
  rw [notifyHandlers]
  exact List.mem_append_left _ (runUserHandlers_mem s e.type sub hm ht)

/-! ## Concrete sample data used by witnesses and counterexamples -/

/-- Metadata of an inbound response correlated to request `A`. -/
def mA : EventMetadata :=
  ⟨"evt-1", "A", "2024-01-01T00:00:00Z", .SERVER, "sess-1"⟩

/-- Metadata with a fresh correlation id, as `createMetadata` produces for
internally built envelopes. -/
def mFresh : EventMetadata :=
  ⟨"evt-2", "f81d4fae-7dec", "2024-01-01T00:00:01Z", .PLUGIN, "sess-1"⟩

/-- Sample service state: connected, built-ins registered, two pending
requests `A` and `B`. -/
def stW : SvcState :=
  ⟨true, true, ["A", "B"], [], true, "sess-1", 0, true, false⟩

/-- An inbound `UPDATE_NODE_COMPLETE` response correlated to `A`. -/
def eRespA : FigmaEvent :=
  ⟨.UPDATE_NODE_COMPLETE, mA, some (.obj [("nodeId", .str "n1"), ("success", .bool true)])⟩

/-- A trace: a correlated response, then `A`'s timer firing, then a caller
disconnect. -/
def trSample : List Act := [.inbound eRespA, .timerFire "A", .disconnect mFresh]

/-- An inbound `UPDATE_NODE_ERROR` (error-typed) response correlated to `A`. -/
def eErrA : FigmaEvent :=
  ⟨.UPDATE_NODE_ERROR, ⟨"evt-9", "A", "2024-01-01T00:00:02Z", .SERVER, "sess-1"⟩,
    some (.obj [("nodeId", .str "n1"), ("message", .str "boom")])⟩

/-- A disconnected service state. -/
def stClosed : SvcState := ⟨false, false, [], [], false, "sess-0", 0, false, false⟩

/-- A domain notification envelope. -/
def eNotif : FigmaEvent :=
  ⟨.SELECTION_CHANGE, mFresh, some (.obj [("ids", .arr [.str "n1"])])⟩

/-- Service state after four consecutive reconnect attempts. -/
def stAtt4 : SvcState := {stW with reconnectAttempts := 4}

/-- Service state with two `SELECTION_CHANGE` subscribers, the first of
which throws when invoked. -/
def stSubs : SvcState :=
  {stW with userHandlers := [⟨.SELECTION_CHANGE, 1, true⟩, ⟨.SELECTION_CHANGE, 2, false⟩]}

/-- Sample `WebSocketClient` state. -/
def wsSt : WSClientState := ⟨true, 0, false⟩

/-- An inbound frame whose `metadata` object carries only `correlation_id`:
four of the five required metadata fields are missing, yet `JSON.parse`
accepts it and `handleEvent` processes it. -/
def sparseFrame : String :=
  "\x7b\"type\":\"UPDATE_NODE_COMPLETE\",\"metadata\":\x7b\"correlation_id\":\"A\"\x7d\x7d"

/-- A parseable frame with no `metadata` member at all:
`event.metadata.correlation_id` throws, so `onmessage` logs and drops it. -/
def metaLessFrame : String := "\x7b\"type\":\"PING\"\x7d"

/-! ## The claims -/

/-- C1: every pending request's future is completed exactly once — by a
correlated inbound envelope, by its own timeout, or by the reject-all path
on `disconnect()` — never zero times and never twice, over every sequence
of inbound frames, timer firings, disconnect calls and transport closes.
The hypothesis `Act.timerFire cid ∈ tr` embeds the JS runtime guarantee
that the `setTimeout` armed at registration eventually fires (firing is a
no-op whenever the entry was already settled, as in the source, so the
count is exactly one in every such trace and never exceeds one in any
trace).  The `Nodup`/`≠ ""` hypotheses hold for the real map: `Map` keys
are distinct and correlation ids come from `crypto.randomUUID()`. -/
theorem claimC1 (s : SvcState) (cid : String) (tr : List Act)
    (hmem : cid ∈ s.pending) (hnd : s.pending.Nodup) (hne : "" ∉ s.pending) :
    (run s tr).2.countP (Evt.completes cid) ≤ 1 ∧
      (Act.timerFire cid ∈ tr → (run s tr).2.countP (Evt.completes cid) = 1) :=
  (run_spec tr s cid hnd hne).2 hmem

/-- Witness for C1 at a concrete state and trace. -/
theorem claimC1_witness :
    ("A" ∈ stW.pending ∧ stW.pending.Nodup ∧ "" ∉ stW.pending) ∧
      (run stW trSample).2.countP (Evt.completes "A") = 1 :=
  ⟨⟨by decide, by decide, by decide⟩,
    (claimC1 stW "A" trSample (by decide) (by decide) (by decide)).2
      (List.Mem.tail _ (List.Mem.head _))⟩

/-- C2 counterexample: with two pending requests `A`, `B` and an unexpected
close (code 1006), the `onclose` handler rejects neither — both stay
pending with zero completion events — although a reconnection attempt is
scheduled; the claim that both futures reject with ConnectionClosed fails
on this input. -/
theorem claimC2_cex :
    (handleClose stW 1006 "abnormal" false mFresh).2.countP (Evt.completes "A") = 0 ∧
    (handleClose stW 1006 "abnormal" false mFresh).2.countP (Evt.completes "B") = 0 ∧
    (handleClose stW 1006 "abnormal" false mFresh).1.pending = ["A", "B"] ∧
    (handleClose stW 1006 "abnormal" false mFresh).2 =
      [Evt.reconnectScheduled 1 (reconnectDelayFor 1)] :=
  ⟨by decide, by decide, by decide, rfl⟩

/-- C2 amended: when the transport closes unexpectedly with requests
pending, the close handler leaves every pending request untouched (no
future is rejected; each is later settled by its own timeout, per C1) and
schedules a reconnection attempt whenever `reconnectAttempts <
maxReconnectAttempts`. -/
theorem claimC2 (s : SvcState) (code : Int) (reason : String) (w : Bool)
    (m : EventMetadata) (hi : s.handlersInstalled = true) :
    (handleClose s code reason w m).1.pending = s.pending ∧
    (∀ cid, (handleClose s code reason w m).2.countP (Evt.completes cid) = 0) ∧
    (s.reconnectAttempts < maxReconnectAttempts →
      Evt.reconnectScheduled (s.reconnectAttempts + 1)
        (reconnectDelayFor (s.reconnectAttempts + 1)) ∈
        (handleClose s code reason w m).2) :=
  ⟨(handleClose_pending s code reason w m "").1,
   fun cid => (handleClose_pending s code reason w m cid).2,
   (handleClose_spec s code reason w m hi).2.2.2.2.2⟩

/-- Witness for C2 (amended) at a concrete state. -/
theorem claimC2_witness :
    stW.handlersInstalled = true ∧
      ((handleClose stW 1006 "abnormal" false mFresh).1.pending = stW.pending ∧
      (∀ cid, (handleClose stW 1006 "abnormal" false mFresh).2.countP
        (Evt.completes cid) = 0) ∧
      (stW.reconnectAttempts < maxReconnectAttempts →
        Evt.reconnectScheduled (stW.reconnectAttempts + 1)
          (reconnectDelayFor (stW.reconnectAttempts + 1)) ∈
          (handleClose stW 1006 "abnormal" false mFresh).2)) :=
  ⟨by decide, claimC2 stW 1006 "abnormal" false mFresh (by decide)⟩

/-- C3 counterexample: a fire-and-forget send while the connection is not
open returns normally with outcome `droppedNotConnected`: nothing is
written to the transport, no local notification happens, the state is
unchanged, and no error is surfaced to the caller (the source logs and
returns) — refuting "the operation either writes to the open transport or
raises". -/
theorem claimC3_cex :
    sendEventInternalR stClosed eNotif = ((stClosed, []), .droppedNotConnected) := by
  decide

/-- C3 amended: a send attempted while the connection is not `Open` is
silently dropped: `sendEventInternal` logs, writes nothing, buffers
nothing, changes no state and surfaces no error to the caller. -/
theorem claimC3 (s : SvcState) (e : FigmaEvent) (h : s.wsOpen = false) :
    sendEventInternalR s e = ((s, []), .droppedNotConnected) := by
  rw [sendEventInternalR, h]
  rfl

/-- Witness for C3 (amended) at a concrete closed state. -/
theorem claimC3_witness :
    stClosed.wsOpen = false ∧
      sendEventInternalR stClosed eNotif = ((stClosed, []), .droppedNotConnected) :=
  ⟨by decide, claimC3 stClosed eNotif (by decide)⟩

/-- C4: evaluation of the code at the failing input.  An inbound
`UPDATE_NODE_ERROR` envelope whose `correlation_id` matches pending
request `A` is resolved as a success value by `handleEvent` (which removes
the entry and returns before `notifyHandlers`), so the rejection path in
`handleNodeUpdateError` is unreachable for pending requests: the future is
never rejected with the peer-supplied detail. -/
theorem claimC4 :
    handleEvent stW eErrA = ({stW with pending := ["B"]}, [.resolved "A"]) ∧
    Evt.rejectedRemote "A" ∉ (handleEvent stW eErrA).2 := by
  decide

/-- C5 counterexample: the delay the code computes for reconnect attempt 5
is `1000 · 1.5⁴ = 5062.5` ms, not the claimed exact `5062` ms; a service
state with four attempts made schedules exactly `5062.5`. -/
theorem claimC5_cex :
    reconnectDelayFor 5 = 10125 / 2 ∧ reconnectDelayFor 5 ≠ 5062 ∧
    (handleClose stAtt4 1006 "x" false mFresh).2 =
      [Evt.reconnectScheduled 5 (reconnectDelayFor 5)] := by
  refine ⟨?_, ?_, rfl⟩
  · norm_num [reconnectDelayFor, reconnectDelay]
  · norm_num [reconnectDelayFor, reconnectDelay]

/-- C5 amended: attempt `n ≥ 1` is scheduled after
`delay(n) = 1000 · 1.5^(n-1)` ms, giving exactly
`1000, 1500, 2250, 3375, 5062.5` for attempts 1–5, and over any number of
consecutive unexpected closes exactly `min n maxReconnectAttempts`
attempts are scheduled from a fresh counter — in particular never a 6th. -/
theorem claimC5 :
    (∀ (s : SvcState) (code : Int) (reason : String) (w : Bool) (m : EventMetadata),
      s.handlersInstalled = true → s.reconnectAttempts < maxReconnectAttempts →
      Evt.reconnectScheduled (s.reconnectAttempts + 1)
        (reconnectDelayFor (s.reconnectAttempts + 1)) ∈
        (handleClose s code reason w m).2) ∧
    reconnectDelayFor 1 = 1000 ∧ reconnectDelayFor 2 = 1500 ∧
    reconnectDelayFor 3 = 2250 ∧ reconnectDelayFor 4 = 3375 ∧
    reconnectDelayFor 5 = 10125 / 2 ∧
    (∀ (n : Nat) (s : SvcState) (code : Int) (reason : String) (w : Bool)
      (m : EventMetadata), s.handlersInstalled = true →
      (run s (List.replicate n (.closeEvt code reason w m))).2.countP Evt.isReconnect =
        min n (maxReconnectAttempts - s.reconnectAttempts)) :=
  ⟨fun s code reason w m hi hlt => (handleClose_spec s code reason w m hi).2.2.2.2.2 hlt,
   by norm_num [reconnectDelayFor, reconnectDelay],
   by norm_num [reconnectDelayFor, reconnectDelay],
   by norm_num [reconnectDelayFor, reconnectDelay],
   by norm_num [reconnectDelayFor, reconnectDelay],
   by norm_num [reconnectDelayFor, reconnectDelay],
   fun n s code reason w m hi => run_closes m code reason w n s hi⟩

/-- Witness for C5 (amended) at concrete inputs. -/
theorem claimC5_witness :
    (stW.handlersInstalled = true ∧ stW.reconnectAttempts < maxReconnectAttempts) ∧
    Evt.reconnectScheduled (stW.reconnectAttempts + 1)
      (reconnectDelayFor (stW.reconnectAttempts + 1)) ∈
      (handleClose stW 1006 "err" false mFresh).2 ∧
    (run stW (List.replicate 7 (.closeEvt 1006 "err" false mFresh))).2.countP
      Evt.isReconnect = min 7 (maxReconnectAttempts - stW.reconnectAttempts) :=
  ⟨⟨by decide, by decide⟩,
   claimC5.1 stW 1006 "err" false mFresh (by decide) (by decide),
   claimC5.2.2.2.2.2.2 7 stW 1006 "err" false mFresh (by decide)⟩

/-- C6 counterexample: a transport close with the normal/intentional close
code 1000 (and `wasClean = true`) still makes the `EventService` `onclose`
handler schedule a reconnection — the handler never inspects the close
code, so reconnection is not restricted to unexpected closes. -/
theorem claimC6_cex :
    (handleClose stW 1000 "normal closure" true mFresh).2 =
      [Evt.reconnectScheduled 1 (reconnectDelayFor 1)] := rfl

/-- C6 amended: the `EventService` schedules reconnection on every close
delivered to its installed `onclose` handler, whatever the close code —
only a caller `disconnect()` (which removes the handler before closing)
never schedules one; the separate `WebSocketClient.handleClose` is the
component that suppresses reconnection exactly for close code 1000 (or
once five attempts were made). -/
theorem claimC6 :
    (∀ (s : SvcState) (code : Int) (reason : String) (w : Bool) (m : EventMetadata),
      s.handlersInstalled = true → s.reconnectAttempts < maxReconnectAttempts →
      (handleClose s code reason w m).2.countP Evt.isReconnect = 1) ∧
    (∀ (s : SvcState) (m : EventMetadata),
      (disconnectCall s m).2.countP Evt.isReconnect = 0) ∧
    (∀ (s : WSClientState) (code : Int),
      (wsClientHandleClose s code).2.1 = true ↔ code ≠ 1000 ∧ s.reconnectAttempts < 5) := by
  refine ⟨fun s code reason w m hi hlt => ?_,
    fun s m => countP_disconnect_isReconnect s m, fun s code => ?_⟩
  · rw [(handleClose_spec s code reason w m hi).2.2.2.1, if_pos hlt]
  · rw [wsClientHandleClose]
    split_ifs with h
    · simp [h]
    · exact iff_of_false (by simp) h

/-- Witness for C6 (amended) at concrete inputs. -/
theorem claimC6_witness :
    (stW.handlersInstalled = true ∧ stW.reconnectAttempts < maxReconnectAttempts) ∧
    (handleClose stW 1005 "" false mFresh).2.countP Evt.isReconnect = 1 ∧
    (disconnectCall stW mFresh).2.countP Evt.isReconnect = 0 ∧
    ((wsClientHandleClose wsSt 1006).2.1 = true ↔ (1006 : Int) ≠ 1000 ∧
      wsSt.reconnectAttempts < 5) :=
  ⟨⟨by decide, by decide⟩,
   claimC6.1 stW 1005 "" false mFresh (by decide) (by decide),
   claimC6.2.1 stW mFresh,
   claimC6.2.2 wsSt 1006⟩

/-- C7: round-trip fidelity of the envelope codec — decoding the text frame
`JSON.stringify` produces for any well-formed envelope (type in the closed
enum, all five metadata fields, JSON payload or absent payload) yields the
same envelope, metadata and payload included. -/
theorem claimC7 (e : FigmaEvent) : decodeFrame (stringify e) = some e := by
  show (parseJson ⟨printJson (eventToJson e)⟩).bind jsonToEvent = some e
  rw [parseJson_print]
  show jsonToEvent (eventToJson e) = some e
  exact jsonToEvent_eventToJson e

/-- C8 counterexample: `sparseFrame` carries a metadata object with only a
`correlation_id` — `event_id`, `timestamp`, `source` and `session_id` are
all missing — so the claim calls it malformed and requires it to be logged
and discarded, completing no pending request.  The service instead
processes it and resolves pending request `A` with it: the source
validates nothing beyond `JSON.parse` succeeding and `event.metadata`
being accessible. -/
theorem claimC8_cex :
    onMessage stW sparseFrame = ({stW with pending := ["B"]}, [.resolved "A"]) := by
  decide

/-- C8 amended: a frame `JSON.parse` rejects, or one whose missing or
`null` `metadata` makes the first field access in `handleEvent` throw, is
dropped inside `onmessage`'s single `try/catch` with no state change — it
closes no connection, completes no pending request, removes no
subscription (`onMessage` returns normally, so no exception escapes) — and
removing such an unparseable frame from any run of actions changes nothing
about the run: every frame before or after it is still dispatched and
resolved exactly as without it.  A frame that parses but merely lacks
required metadata fields is NOT discarded (see the counterexample). -/
theorem claimC8 :
    (∀ (s : SvcState) (f : String), jsParse f = none → onMessage s f = (s, [])) ∧
    (∀ (s : SvcState) (f : String) (j : JsVal), jsParse f = some j →
      looseCorrelationId j = none → onMessage s f = (s, [])) ∧
    (∀ (s : SvcState) (l1 l2 : List Act) (bad : String), jsParse bad = none →
      run s (l1 ++ .rawFrame bad :: l2) = run s (l1 ++ l2)) := by
  refine ⟨?_, ?_, ?_⟩
  · intro s f h
    rw [onMessage, h]
  · intro s f j hp hc
    simp [onMessage, hp, hc]
  · intro s l1 l2 bad hbad
    have hstep : step (run s l1).1 (.rawFrame bad) = ((run s l1).1, []) := by
      show onMessage (run s l1).1 bad = ((run s l1).1, [])
      rw [onMessage, hbad]
    rw [run_append l1 s (.rawFrame bad :: l2), run_append l1 s l2,
      run_cons_nop (run s l1).1 (.rawFrame bad) l2 hstep]

/-- Witness for C8: a concrete unparseable frame and a concrete
metadata-less frame are both dropped with no state change, and removing
the unparseable frame from a run that receives well-formed frames before
and after it leaves the run unchanged. -/
theorem claimC8_witness :
    onMessage stW "not-json" = (stW, []) ∧
    onMessage stW metaLessFrame = (stW, []) ∧
    run stW [.rawFrame (stringify eRespA), .rawFrame "not-json",
        .rawFrame (stringify eNotif)] =
      run stW [.rawFrame (stringify eRespA), .rawFrame (stringify eNotif)] :=
  ⟨claimC8.1 stW "not-json" rfl,
   claimC8.2.1 stW metaLessFrame (.obj [("type", .str "PING")]) rfl rfl,
   claimC8.2.2 stW [.rawFrame (stringify eRespA)] [.rawFrame (stringify eNotif)]
     "not-json" rfl⟩

/-- C9 counterexample: a `connect()` call made while the connection is
already `Open` returns immediately (second component `true`) yet replaces
`sessionId` with the freshly generated value — the claim that such a call
leaves the session id unchanged fails. -/
theorem claimC9_cex :
    (connectCall stW "fresh-session").2 = true ∧
    (connectCall stW "fresh-session").1.sessionId = "fresh-session" ∧
    (connectCall stW "fresh-session").1.sessionId ≠ stW.sessionId := by
  decide

/-- C9 amended: `connect()` regenerates `sessionId` on every invocation —
before the already-open check, so even an immediately returning call
rotates it — and nothing else ever changes it: every processed action
(inbound frame, timer, disconnect, close) and the `onopen` handler
preserve `sessionId`.  Distinct generated values therefore give distinct
session ids across establishments (and across every pair of `connect`
calls). -/
theorem claimC9 :
    (∀ (s : SvcState) (fresh : String), (connectCall s fresh).1.sessionId = fresh) ∧
    (∀ (s : SvcState) (a : Act), (step s a).1.sessionId = s.sessionId) ∧
    (∀ (s : SvcState) (m : EventMetadata), (handleOpen s m).1.sessionId = s.sessionId) :=
  ⟨connectCall_sessionId, step_sessionId, handleOpen_sessionId⟩

/-- C10: an outbound envelope successfully written to the open transport
whose type is neither `PING` nor `PONG` is also delivered synchronously to
the local subscribers of its type through the same `notifyHandlers` used
for inbound dispatch (so with the same per-handler exception isolation:
every matching subscriber is invoked even if another one throws); outbound
`PING`/`PONG` envelopes are written without any local delivery. -/
theorem claimC10 (s : SvcState) (e : FigmaEvent)
    (ho : s.wsOpen = true) (hf : s.sendFails = false) :
    ((e.type ≠ .PING ∧ e.type ≠ .PONG) →
      (sendEventInternalR s e).2 = .sent ∧
      (sendEventInternal s e).2 = .wrote (stringify e) :: (notifyHandlers s e).2 ∧
      (∀ sub ∈ s.userHandlers, sub.eventType = e.type →
        Evt.handlerRun sub.handlerId (!sub.throws) ∈ (sendEventInternal s e).2)) ∧
    ((e.type = .PING ∨ e.type = .PONG) →
      (sendEventInternal s e).2 = [.wrote (stringify e)]) := by
  constructor
  · intro hne
    have hor : ¬(e.type = .PING ∨ e.type = .PONG) := fun hor => hor.elim hne.1 hne.2
    have hech := sendEventInternal_echo s e ho hf hor
    refine ⟨sendEventInternalR_sent s e ho hf, by rw [hech], ?_⟩
    intro sub hm ht
    rw [hech]
    exact List.mem_cons_of_mem _ (notifyHandlers_mem s e sub hm ht)
  · intro hp
    rw [sendEventInternal_pingpong s e ho hf hp]

/-- Witness for C10: with two subscribers for the outbound type, the first
of which throws, both are invoked and the frame is written. -/
theorem claimC10_witness :
    (stSubs.wsOpen = true ∧ stSubs.sendFails = false ∧
      (eNotif.type ≠ FigmaEventType.PING ∧ eNotif.type ≠ FigmaEventType.PONG)) ∧
    (sendEventInternalR stSubs eNotif).2 = .sent ∧
    Evt.handlerRun 1 false ∈ (sendEventInternal stSubs eNotif).2 ∧
    Evt.handlerRun 2 true ∈ (sendEventInternal stSubs eNotif).2 :=
  ⟨⟨by decide, by decide, by decide, by decide⟩,
   ((claimC10 stSubs eNotif (by decide) (by decide)).1 ⟨by decide, by decide⟩).1,
   ((claimC10 stSubs eNotif (by decide) (by decide)).1 ⟨by decide, by decide⟩).2.2
     ⟨.SELECTION_CHANGE, 1, true⟩ (by decide) (by decide),
   ((claimC10 stSubs eNotif (by decide) (by decide)).1 ⟨by decide, by decide⟩).2.2
     ⟨.SELECTION_CHANGE, 2, false⟩ (by decide) (by decide)⟩

end VibeDesign
